import Mathlib

/-!
# Cart routes of the e-commerce backend

A shallow embedding of `src/backend/routes/cartRoutes.js` (the handlers
`router.post("/")`, `router.put("/")`, `router.delete("/")`,
`router.post("/merge")` and the helper `getCart`) together with the
properties of the cart aggregate.

Modelling conventions
* The `Cart` collection is a list of documents; `findOne` returns the first
  document matching the filter, `save` overwrites the document carrying the
  same `_id`, `create` appends a document with a fresh `_id`.
* Identifiers and sizes are strings; a JavaScript string is truthy iff it is
  not empty, an absent field (`undefined`) is `none`.
* `totalPrice` is a number in the schema of the cart. A value that is not a
  number does not cast when it is assigned, and the `save()` that follows
  throws; the handlers other than the merge assign numbers only, so their
  `save()` goes through.
* `Cart.findOne({guestId})` with an absent `guestId` matches the documents
  without a guest id, as a query for `null` does.
* Prices and quantities are exact integers (`Int`): the arithmetic of the
  handlers is `+` and `*` only. The requested quantity is an integer, so
  `Number(quantity)` is the quantity itself.
* `findIndex` returns `none` where JavaScript returns `-1`, so the test
  `productIndex > -1` is the test for `some`.
* An exception raised inside the `try` block is the `500` answer of the
  `catch` block; nothing has been saved at that point.
-/

namespace CartRoutes

/-! ## Data model -/

/-- An entry of `product.images`. -/
structure Image where
  url : String
  deriving DecidableEq, Repr

/-- The fields of a catalog product that the cart routes read. -/
structure Product where
  name : String
  images : List Image
  price : Int
  deriving DecidableEq, Repr

/-- One element of `cart.products`. -/
structure CartItem where
  productId : String
  name : String
  image : String
  price : Int
  size : String
  quantity : Int
  deriving DecidableEq, Repr

/-- A JavaScript value that the handlers assign to `totalPrice`: a number, a
line object, or the string that `+` makes of a non-number and a number
(`concat v n` is `String(v) + String(n)`). -/
inductive JsValue where
  | number (n : Int)
  | object (item : CartItem)
  | concat (left : JsValue) (n : Int)
  deriving DecidableEq, Repr

/-- A document of the `Cart` collection. -/
structure Cart where
  _id : Nat
  user : Option String
  guestId : Option String
  products : List CartItem
  totalPrice : JsValue
  deriving DecidableEq, Repr

/-- The `Cart` collection. -/
abbrev Store := List Cart

/-- The catalog: `Product.findById`. -/
abbrev Catalog := String → Option Product

/-- The body of an Add, Update or Remove request (`req.body`). -/
structure CartRequest where
  productId : String
  quantity : Int
  size : String
  guestId : Option String
  userId : Option String
  deriving DecidableEq, Repr

/-- What `res.json` sends: a cart document or `{message: ...}`. -/
inductive Body where
  | cart (c : Cart)
  | message (m : String)
  deriving DecidableEq, Repr

/-- The answer of a handler: `res.status(status).json(body)`. -/
structure Response where
  status : Nat
  body : Body
  deriving DecidableEq, Repr

/-! ## Store and array primitives -/

/-- JavaScript truthiness of an optional string: `undefined` and `""` are falsy. -/
def truthy : Option String → Bool
  | none => false
  | some s => s != ""

/-- `Cart.findOne(filter)`: the first document that satisfies the filter. -/
def findOne (filter : Cart → Bool) (store : Store) : Option Cart :=
  store.find? filter

/-- `cart.save()`: the stored document with the same `_id` is overwritten. -/
def save (store : Store) (cart : Cart) : Store :=
  store.map (fun d => if d._id = cart._id then cart else d)

/-- An `_id` that no stored document carries. -/
def freshId (store : Store) : Nat :=
  (store.map (fun d => d._id)).foldr max 0 + 1

/-- `Cart.create(doc)`: the document is inserted into the collection. -/
def create (store : Store) (cart : Cart) : Store :=
  store ++ [cart]

/-- `Array.prototype.findIndex`; `none` stands for `-1`. -/
def findIndex {α : Type} (p : α → Bool) : List α → Option Nat
  | [] => none
  | x :: xs => if p x then some 0 else (findIndex p xs).map (· + 1)

/-- In-place update of the element at an index: `arr[i] = f(arr[i])`. -/
def modifyAt {α : Type} (f : α → α) : List α → Nat → List α
  | [], _ => []
  | x :: xs, 0 => f x :: xs
  | x :: xs, i + 1 => x :: modifyAt f xs i

/-- `arr.splice(i, 1)`. -/
def splice1 {α : Type} (l : List α) (i : Nat) : List α :=
  l.eraseIdx i

/-- The recalculation
`cart.products.reduce((acc, item) => acc + item.price * item.quantity, 0)`. -/
def recalcTotal (products : List CartItem) : Int :=
  products.foldl (fun acc item => acc + item.price * item.quantity) 0

/-- The predicate of the `findIndex` calls:
`p.productId.toString() === productId && p.size === size`. -/
def sameLine (productId size : String) (p : CartItem) : Bool :=
  p.productId == productId && p.size == size

/-! ## The handlers -/

/-- Helper `getCart`: by user when `userId` is truthy, else by guest id when
`guestId` is truthy, else `null`. -/
def getCart (store : Store) (userId guestId : Option String) : Option Cart :=
  if truthy userId then
    findOne (fun c => c.user == userId) store
  else if truthy guestId then
    findOne (fun c => c.guestId == guestId) store
  else
    none

/-- The literal `{productId, name: product.name, image: product.images[0].url,
price: product.price, size, quantity}`; `none` when `product.images[0]` is
`undefined` (reading `.url` then throws). -/
def newLine (product : Product) (req : CartRequest) : Option CartItem :=
  match product.images with
  | [] => none
  | img :: _ =>
    some { productId := req.productId, name := product.name, image := img.url,
           price := product.price, size := req.size, quantity := req.quantity }

/-- The answer of the `catch` blocks. -/
def serverError : Response :=
  ⟨500, .message "Server Error"⟩

/-- Handler `router.post("/")`: add a product to the cart. `now` is
`new Date().getTime()`. -/
def postCart (catalog : Catalog) (now : Nat) (store : Store) (req : CartRequest) :
    Response × Store :=
  match catalog req.productId with
  | none => (⟨404, .message "Product not found"⟩, store)
  | some product =>
    match getCart store req.userId req.guestId with
    | some cart =>
      match findIndex (sameLine req.productId req.size) cart.products with
      | some productIndex =>
        let products := modifyAt
          (fun p => { p with quantity := p.quantity + req.quantity })
          cart.products productIndex
        let cart1 :=
          { cart with products := products, totalPrice := .number (recalcTotal products) }
        (⟨200, .cart cart1⟩, save store cart1)
      | none =>
        match newLine product req with
        | none => (serverError, store)
        | some line =>
          let products := cart.products ++ [line]
          let cart1 :=
            { cart with products := products, totalPrice := .number (recalcTotal products) }
          (⟨200, .cart cart1⟩, save store cart1)
    | none =>
      match newLine product req with
      | none => (serverError, store)
      | some line =>
        let newCart : Cart :=
          { _id := freshId store
            user := if truthy req.userId then req.userId else none
            guestId := if truthy req.guestId then req.guestId
                       else some ("guest_" ++ toString now)
            products := [line]
            totalPrice := .number (product.price * req.quantity) }
        (⟨201, .cart newCart⟩, create store newCart)

/-- Handler `router.put("/")`: update the quantity of a line. -/
def putCart (store : Store) (req : CartRequest) : Response × Store :=
  match getCart store req.userId req.guestId with
  | none => (⟨404, .message "Cart not found"⟩, store)
  | some cart =>
    match findIndex (sameLine req.productId req.size) cart.products with
    | some productIndex =>
      let products :=
        if req.quantity > 0 then
          modifyAt (fun p => { p with quantity := req.quantity }) cart.products productIndex
        else
          splice1 cart.products productIndex
      let cart1 :=
        { cart with products := products, totalPrice := .number (recalcTotal products) }
      (⟨200, .cart cart1⟩, save store cart1)
    | none => (⟨404, .message "Product not found in cart"⟩, store)

/-- Handler `router.delete("/")`: remove a line from the cart. -/
def deleteCart (store : Store) (req : CartRequest) : Response × Store :=
  match getCart store req.userId req.guestId with
  | none => (⟨404, .message "Cart not found"⟩, store)
  | some cart =>
    match findIndex (sameLine req.productId req.size) cart.products with
    | some productIndex =>
      let products := splice1 cart.products productIndex
      let cart1 :=
        { cart with products := products, totalPrice := .number (recalcTotal products) }
      (⟨200, .cart cart1⟩, save store cart1)
    | none => (⟨404, .message "Product not found in cart"⟩, store)

/-- `Cart.findOneAndDelete(filter)`: the first matching document is removed. -/
def findOneAndDelete (filter : Cart → Bool) (store : Store) : Store :=
  store.eraseP filter

/-- JavaScript `acc + n` for a number `n`: addition when `acc` is a number,
string concatenation when it is an object or a string. -/
def jsAdd : JsValue → Int → JsValue
  | .number a, n => .number (a + n)
  | .object item, n => .concat (.object item) n
  | .concat left m, n => .concat (.concat left m) n

/-- The recalculation of the merge handler,
`userCart.products.reduce((acc, item) => acc + item.price * item.quantity,)`,
which passes no initial value: the accumulator starts as the first line and the
callback runs from the second line on. `none` is the `TypeError` that `reduce`
throws on an empty array. -/
def reduceNoInit : List CartItem → Option JsValue
  | [] => none
  | first :: rest =>
    some (rest.foldl (fun acc item => jsAdd acc (item.price * item.quantity))
      (.object first))

/-- The body of `guestCart.products.forEach`: the guest quantity is added to the
first line of the user cart with the guest line's key, or the guest line is pushed. -/
def mergeItem (products : List CartItem) (guestItem : CartItem) : List CartItem :=
  match findIndex (sameLine guestItem.productId guestItem.size) products with
  | some productIndex =>
    modifyAt (fun p => { p with quantity := p.quantity + guestItem.quantity })
      products productIndex
  | none => products ++ [guestItem]

/-- The whole `forEach` over the guest lines, starting from the user lines. -/
def mergeItems (userProducts guestProducts : List CartItem) : List CartItem :=
  guestProducts.foldl mergeItem userProducts

/-- Modelled from the spec: the schema of `models/Cart.js` is not among the
sources; the cart of the specification has a numeric `totalPrice`. A value
assigned to `totalPrice` casts to the schema type exactly when it is a number;
a line object or a string made of one does not, and the document then fails
validation in `save()`. -/
def castsToNumber : JsValue → Bool
  | .number _ => true
  | .object _ => false
  | .concat _ _ => false

/-- Handler `router.post("/merge")`: `guestId` is `req.body.guestId`, `userId` is
`req.user._id` of the authenticated caller. `deleteOk = false` is the run in
which `Cart.findOneAndDelete` throws, which the inner `catch` only logs. When the
value assigned to `userCart.totalPrice` does not cast to a number,
`await userCart.save()` throws and the outer `catch` answers `500`. -/
def mergeCart (deleteOk : Bool) (store : Store) (guestId : Option String)
    (userId : String) : Response × Store :=
  let guestCart := findOne (fun c => c.guestId == guestId) store
  let userCart := findOne (fun c => c.user == some userId) store
  match guestCart with
  | some guestCart =>
    if guestCart.products.length = 0 then
      (⟨400, .message "Guest cart is empty"⟩, store)
    else
      match userCart with
      | some userCart =>
        let products := mergeItems userCart.products guestCart.products
        match reduceNoInit products with
        | none => (serverError, store)
        | some total =>
          if castsToNumber total then
            let userCart1 := { userCart with products := products, totalPrice := total }
            let store1 := save store userCart1
            let store2 :=
              if deleteOk then findOneAndDelete (fun c => c.guestId == guestId) store1
              else store1
            (⟨200, .cart userCart1⟩, store2)
          else
            (serverError, store)
      | none =>
        let guestCart1 := { guestCart with user := some userId, guestId := none }
        (⟨200, .cart guestCart1⟩, save store guestCart1)
  | none =>
    match userCart with
    | some userCart => (⟨200, .cart userCart⟩, store)
    | none => (⟨404, .message "Guest cart not found"⟩, store)

/-! ## Vocabulary of the specification -/

/-- The sum over the lines of `price * quantity`. -/
def lineSum (products : List CartItem) : Int :=
  (products.map (fun item => item.price * item.quantity)).sum

/-- The composite key of a line. -/
def lineKey (p : CartItem) : String × String :=
  (p.productId, p.size)

/-- Error `CartNotFound` at the API boundary. -/
def cartNotFound : Response :=
  ⟨404, .message "Cart not found"⟩

/-- Error `ItemNotFound` at the API boundary. -/
def itemNotFound : Response :=
  ⟨404, .message "Product not found in cart"⟩

/-- Error `ProductNotFound` at the API boundary. -/
def productNotFound : Response :=
  ⟨404, .message "Product not found"⟩

/-- Error `EmptyGuestCart` at the API boundary. -/
def emptyGuestCart : Response :=
  ⟨400, .message "Guest cart is empty"⟩

/-- Error `NothingToMerge` at the API boundary. -/
def nothingToMerge : Response :=
  ⟨404, .message "Guest cart not found"⟩

/-- A user line after the merge, in the words of the specification: its quantity
is increased by that of the guest line with the same key if there is one. -/
def mergedLine (guestProducts : List CartItem) (u : CartItem) : CartItem :=
  match guestProducts.find? (sameLine u.productId u.size) with
  | some g => { u with quantity := u.quantity + g.quantity }
  | none => u

/-- The merged lines in the words of the specification: every user line in its
place, merged with the guest line of its key, followed by the guest lines whose
key no user line has, in guest order and as they are. -/
def mergedLinesSpec (userProducts guestProducts : List CartItem) : List CartItem :=
  userProducts.map (mergedLine guestProducts) ++
    guestProducts.filter (fun g => !(userProducts.any (sameLine g.productId g.size)))

/-- A cart has exactly one owner key: a user and no guest id, or a guest id and
no user. -/
def oneOwnerKey (c : Cart) : Prop :=
  (c.user.isSome ∧ c.guestId = none) ∨ (c.guestId.isSome ∧ c.user = none)

/-- Every line of every stored cart has a positive quantity. -/
def quantitiesPositive (store : Store) : Prop :=
  ∀ c ∈ store, ∀ l ∈ c.products, 0 < l.quantity

/-- In no stored cart do two lines share the key `(productId, size)`. -/
def keysUnique (store : Store) : Prop :=
  ∀ c ∈ store, (c.products.map lineKey).Nodup

/-! ## Sample data -/

/-- A catalog with one product with an image and one without. -/
def sampleCatalog : Catalog := fun id =>
  if id = "A" then some ⟨"Shirt", [⟨"a.png"⟩], 10⟩
  else if id = "B" then some ⟨"Hat", [], 7⟩
  else none

/-- A request of guest `g1` for product `A`, size `M`. -/
def reqA (q : Int) : CartRequest :=
  ⟨"A", q, "M", some "g1", none⟩

/-- The catalog after product `A` has been renamed, re-imaged and re-priced. -/
def changedCatalog : Catalog := fun id =>
  if id = "A" then some ⟨"Shirt v2", [⟨"b.png"⟩], 12⟩ else none

/-- The cart of guest `g1` holding `q` pieces of product `A` in size `M`. -/
def cartA (q : Int) : Cart :=
  ⟨1, none, some "g1", [⟨"A", "Shirt", "a.png", 10, "M", q⟩], .number (10 * q)⟩

/-- A request of guest `g1` for product `B`, which has no image. -/
def reqB (q : Int) : CartRequest :=
  ⟨"B", q, "M", some "g1", none⟩

/-- The cart of user `u1` with product `A` in sizes `M` and `L` and product `C`. -/
def cartU : Cart :=
  ⟨4, some "u1", none,
    [⟨"A", "Shirt", "a.png", 10, "M", 2⟩, ⟨"A", "Shirt", "a.png", 10, "L", 1⟩,
     ⟨"C", "Cap", "c.png", 5, "M", 3⟩], .number 45⟩

/-- A request of user `u1` for product `A` in size `L`. -/
def reqU (q : Int) : CartRequest :=
  ⟨"A", q, "L", none, some "u1"⟩

/-- The cart of user `u1` holding `q` pieces of product `B` in size `L`. -/
def cartB (q : Int) : Cart :=
  ⟨2, some "u1", none, [⟨"B", "Hat", "b.png", 7, "L", q⟩], .number (7 * q)⟩

/-- The cart of user `u1` holding `q` pieces of product `A` in size `M`. -/
def cartUA (q : Int) : Cart :=
  ⟨2, some "u1", none, [⟨"A", "Shirt", "a.png", 10, "M", q⟩], .number (10 * q)⟩

/-- An Add request that carries both a user id and a guest id. -/
def reqBoth (q : Int) : CartRequest :=
  ⟨"A", q, "M", some "g1", some "u1"⟩

/-- An Add request that carries a user id only. -/
def reqUserOnly (q : Int) : CartRequest :=
  ⟨"A", q, "M", none, some "u1"⟩

/-- A cart that carries both the user `u1` and the guest id `g1`. -/
def cartBoth (id : Nat) (q : Int) : Cart :=
  ⟨id, some "u1", some "g1", [⟨"A", "Shirt", "a.png", 10, "M", q⟩], .number (10 * q)⟩

/-- A guest cart of `g1` without lines. -/
def emptyCartG : Cart :=
  ⟨1, none, some "g1", [], .number 0⟩

/-! ## Lemmas on the primitives -/

theorem foldl_total_shift (products : List CartItem) (a : Int) :
    products.foldl (fun acc item => acc + item.price * item.quantity) a
      = a + lineSum products := by
  induction products generalizing a with
  | nil => simp [lineSum]
  | cons x xs ih =>
    simp only [List.foldl_cons, ih, lineSum, List.map_cons, List.sum_cons]
    ring

theorem recalcTotal_eq_lineSum (products : List CartItem) :
    recalcTotal products = lineSum products := by
  simp [recalcTotal, foldl_total_shift]

theorem sameLine_iff (productId size : String) (p : CartItem) :
    sameLine productId size p = true ↔ p.productId = productId ∧ p.size = size := by
  simp [sameLine]

theorem findIndex_eq_none {α : Type} (p : α → Bool) (l : List α) :
    findIndex p l = none ↔ ∀ x ∈ l, p x = false := by
  induction l with
  | nil => simp [findIndex]
  | cons x xs ih =>
    by_cases hx : p x = true
    · simp [findIndex, hx]
    · simp [findIndex, hx, ih]

/-- A found index splits the array at the first element satisfying the predicate. -/
theorem findIndex_eq_some {α : Type} (p : α → Bool) (l : List α) (i : Nat)
    (h : findIndex p l = some i) :
    ∃ pre x post, l = pre ++ x :: post ∧ pre.length = i ∧ p x = true ∧
      ∀ y ∈ pre, p y = false := by
  induction l generalizing i with
  | nil => simp [findIndex] at h
  | cons a as ih =>
    by_cases ha : p a = true
    · simp [findIndex, ha] at h
      exact ⟨[], a, as, by simp, by simpa using h, ha, by simp⟩
    · simp only [findIndex, ha, Bool.false_eq_true, if_false] at h
      cases hj : findIndex p as with
      | none => simp [hj] at h
      | some j =>
      simp only [hj, Option.map_some', Option.some.injEq] at h
      subst h
      obtain ⟨pre, x, post, hl, hlen, hx, hpre⟩ := ih j hj
      refine ⟨a :: pre, x, post, by simp [hl], by simp [hlen], hx, ?_⟩
      intro y hy
      rcases List.mem_cons.mp hy with rfl | hy
      · simpa using ha
      · exact hpre y hy

theorem findIndex_isSome_of_mem {α : Type} (p : α → Bool) (l : List α)
    (h : ∃ x ∈ l, p x = true) : ∃ i, findIndex p l = some i := by
  cases hf : findIndex p l with
  | some i => exact ⟨i, rfl⟩
  | none =>
    obtain ⟨x, hx, hp⟩ := h
    have := (findIndex_eq_none p l).mp hf x hx
    simp [hp] at this

theorem modifyAt_append_cons {α : Type} (f : α → α) (pre : List α) (x : α) (post : List α) :
    modifyAt f (pre ++ x :: post) pre.length = pre ++ f x :: post := by
  induction pre with
  | nil => simp [modifyAt]
  | cons a as ih => simp [modifyAt, ih]

theorem splice1_append_cons {α : Type} (pre : List α) (x : α) (post : List α) :
    splice1 (pre ++ x :: post) pre.length = pre ++ post := by
  induction pre with
  | nil => simp [splice1]
  | cons a as ih =>
    simp only [splice1] at ih
    simp [splice1, ih]

theorem mem_save_of_mem (store : Store) (c c1 : Cart) (hc : c ∈ store) (hid : c1._id = c._id) :
    c1 ∈ save store c1 := by
  simp only [save, List.mem_map]
  exact ⟨c, hc, by simp [hid]⟩

theorem find?_save (filter : Cart → Bool) (store : Store) (c c1 : Cart)
    (hfind : store.find? filter = some c) (hid : c1._id = c._id) (hf : filter c1 = true) :
    (save store c1).find? filter = some c1 := by
  induction store with
  | nil => simp at hfind
  | cons d ds ih =>
    simp only [save, List.map_cons] at ih ⊢
    by_cases hd : d._id = c1._id
    · simp [hd, hf]
    · by_cases hfd : filter d = true
      · simp only [List.find?_cons, hfd] at hfind
        have : d = c := by simpa using hfind
        subst this
        exact absurd hid.symm hd
      · simp only [List.find?_cons, hfd] at hfind
        simp only [hd, if_false, List.find?_cons, hfd]
        exact ih hfind

theorem getCart_mem (store : Store) (userId guestId : Option String) (c : Cart)
    (h : getCart store userId guestId = some c) : c ∈ store := by
  unfold getCart findOne at h
  split_ifs at h
  · exact List.mem_of_find?_eq_some h
  · exact List.mem_of_find?_eq_some h

/-- After `save`, the owner that resolved to the cart resolves to the saved document. -/
theorem getCart_save (store : Store) (userId guestId : Option String) (c c1 : Cart)
    (h : getCart store userId guestId = some c) (hid : c1._id = c._id)
    (hu : c1.user = c.user) (hg : c1.guestId = c.guestId) :
    getCart (save store c1) userId guestId = some c1 := by
  unfold getCart findOne at h ⊢
  split_ifs at h ⊢ with h1 h2
  · have hc := List.find?_some h
    exact find?_save _ store c c1 h hid (by simpa [hu] using hc)
  · have hc := List.find?_some h
    exact find?_save _ store c c1 h hid (by simpa [hg] using hc)

theorem postCart_success (catalog : Catalog) (now : Nat) (store : Store) (req : CartRequest)
    (c : Cart) (hok : (postCart catalog now store req).1.body = .cart c) :
    c.totalPrice = .number (lineSum c.products) ∧ c ∈ (postCart catalog now store req).2 := by
  unfold postCart at hok ⊢
  cases hp : catalog req.productId with
  | none => simp [hp] at hok
  | some product =>
    cases hc : getCart store req.userId req.guestId with
    | none =>
      cases hl : newLine product req with
      | none => simp [hp, hc, hl, serverError] at hok
      | some line =>
        simp only [hp, hc, hl, Body.cart.injEq] at hok ⊢
        subst hok
        have hprice : line.price = product.price ∧ line.quantity = req.quantity := by
          unfold newLine at hl
          split at hl
          · simp at hl
          · simp only [Option.some.injEq] at hl
            subst hl
            exact ⟨rfl, rfl⟩
        simp [lineSum, create, hprice.1, hprice.2]
    | some cart =>
      have hmem := getCart_mem store _ _ cart hc
      cases hi : findIndex (sameLine req.productId req.size) cart.products with
      | some idx =>
        simp only [hp, hc, hi, Body.cart.injEq] at hok ⊢
        subst hok
        exact ⟨congrArg JsValue.number (recalcTotal_eq_lineSum _),
          mem_save_of_mem store cart _ hmem rfl⟩
      | none =>
        cases hl : newLine product req with
        | none => simp [hp, hc, hi, hl, serverError] at hok
        | some line =>
          simp only [hp, hc, hi, hl, Body.cart.injEq] at hok ⊢
          subst hok
          exact ⟨congrArg JsValue.number (recalcTotal_eq_lineSum _),
            mem_save_of_mem store cart _ hmem rfl⟩

theorem putCart_success (store : Store) (req : CartRequest)
    (c : Cart) (hok : (putCart store req).1.body = .cart c) :
    c.totalPrice = .number (lineSum c.products) ∧ c ∈ (putCart store req).2 := by
  unfold putCart at hok ⊢
  cases hc : getCart store req.userId req.guestId with
  | none => simp [hc] at hok
  | some cart =>
    have hmem := getCart_mem store _ _ cart hc
    cases hi : findIndex (sameLine req.productId req.size) cart.products with
    | none => simp [hc, hi] at hok
    | some idx =>
      simp only [hc, hi, Body.cart.injEq] at hok ⊢
      subst hok
      exact ⟨congrArg JsValue.number (recalcTotal_eq_lineSum _),
        mem_save_of_mem store cart _ hmem rfl⟩

theorem deleteCart_success (store : Store) (req : CartRequest)
    (c : Cart) (hok : (deleteCart store req).1.body = .cart c) :
    c.totalPrice = .number (lineSum c.products) ∧ c ∈ (deleteCart store req).2 := by
  unfold deleteCart at hok ⊢
  cases hc : getCart store req.userId req.guestId with
  | none => simp [hc] at hok
  | some cart =>
    have hmem := getCart_mem store _ _ cart hc
    cases hi : findIndex (sameLine req.productId req.size) cart.products with
    | none => simp [hc, hi] at hok
    | some idx =>
      simp only [hc, hi, Body.cart.injEq] at hok ⊢
      subst hok
      exact ⟨congrArg JsValue.number (recalcTotal_eq_lineSum _),
        mem_save_of_mem store cart _ hmem rfl⟩

/-- The first line with a given key splits the list, and `findIndex` returns its position. -/
theorem split_first_line (productId size : String) (l : List CartItem)
    (h : ∃ x ∈ l, x.productId = productId ∧ x.size = size) :
    ∃ pre line post, l = pre ++ line :: post ∧
      (∀ y ∈ pre, ¬ (y.productId = productId ∧ y.size = size)) ∧
      line.productId = productId ∧ line.size = size ∧
      findIndex (sameLine productId size) l = some pre.length := by
  obtain ⟨x, hx, hkey⟩ := h
  obtain ⟨i, hi⟩ := findIndex_isSome_of_mem (sameLine productId size) l
    ⟨x, hx, (sameLine_iff _ _ _).mpr hkey⟩
  obtain ⟨pre, line, post, hl, hlen, hline, hpre⟩ := findIndex_eq_some _ l i hi
  refine ⟨pre, line, post, hl, ?_, ((sameLine_iff _ _ _).mp hline).1,
    ((sameLine_iff _ _ _).mp hline).2, by rw [hi, hlen]⟩
  intro y hy hk
  have := hpre y hy
  rw [(sameLine_iff _ _ _).mpr hk] at this
  exact Bool.noConfusion this

theorem findIndex_none_of_no_line (productId size : String) (l : List CartItem)
    (h : ∀ x ∈ l, ¬ (x.productId = productId ∧ x.size = size)) :
    findIndex (sameLine productId size) l = none := by
  rw [findIndex_eq_none]
  intro x hx
  cases hs : sameLine productId size x with
  | false => rfl
  | true => exact absurd ((sameLine_iff _ _ _).mp hs) (h x hx)

theorem newLine_eq_some (product : Product) (req : CartRequest) (img : Image)
    (rest : List Image) (himg : product.images = img :: rest) :
    newLine product req = some ⟨req.productId, product.name, img.url, product.price,
      req.size, req.quantity⟩ := by
  simp [newLine, himg]

/-- Add on a cart without the key, for a product that has a first image: the line
built from the catalog is pushed at the end and the other lines stay as they are. -/
theorem postCart_appends (catalog : Catalog) (now : Nat) (store : Store)
    (req : CartRequest) (product : Product) (cart : Cart) (img : Image) (rest : List Image)
    (hprod : catalog req.productId = some product)
    (himg : product.images = img :: rest)
    (hcart : getCart store req.userId req.guestId = some cart)
    (hline : ∀ l ∈ cart.products, ¬ (l.productId = req.productId ∧ l.size = req.size)) :
    ∃ cart1 : Cart,
      cart1.products = cart.products ++
        [⟨req.productId, product.name, img.url, product.price, req.size, req.quantity⟩] ∧
      cart1._id = cart._id ∧ cart1.user = cart.user ∧ cart1.guestId = cart.guestId ∧
      postCart catalog now store req = (⟨200, .cart cart1⟩, save store cart1) ∧
      getCart (save store cart1) req.userId req.guestId = some cart1 := by
  have hidx := findIndex_none_of_no_line req.productId req.size cart.products hline
  refine ⟨{ cart with
      products := cart.products ++
        [⟨req.productId, product.name, img.url, product.price, req.size, req.quantity⟩]
      totalPrice := .number (recalcTotal (cart.products ++
        [⟨req.productId, product.name, img.url, product.price, req.size, req.quantity⟩])) },
    rfl, rfl, rfl, rfl, ?_, getCart_save store _ _ cart _ hcart rfl rfl rfl⟩
  unfold postCart
  simp only [hprod, hcart, hidx, newLine_eq_some product req img rest himg]

/-- Add when no cart resolves, for a product that has a first image: a cart with
the single line built from the catalog is created and reported with `201`. -/
theorem postCart_creates (catalog : Catalog) (now : Nat) (store : Store)
    (req : CartRequest) (product : Product) (img : Image) (rest : List Image)
    (hprod : catalog req.productId = some product)
    (himg : product.images = img :: rest)
    (hcart : getCart store req.userId req.guestId = none) :
    ∃ newCart : Cart,
      newCart.products =
        [⟨req.productId, product.name, img.url, product.price, req.size, req.quantity⟩] ∧
      newCart.totalPrice = .number (product.price * req.quantity) ∧
      postCart catalog now store req = (⟨201, .cart newCart⟩, store ++ [newCart]) := by
  refine ⟨{ _id := freshId store
            user := if truthy req.userId then req.userId else none
            guestId := if truthy req.guestId then req.guestId
                       else some ("guest_" ++ toString now)
            products :=
              [⟨req.productId, product.name, img.url, product.price, req.size, req.quantity⟩]
            totalPrice := .number (product.price * req.quantity) }, rfl, rfl, ?_⟩
  unfold postCart
  simp only [hprod, hcart, newLine_eq_some product req img rest himg, create]

/-- Add on a cart whose first line with the key sits after `pre`: that line's
quantity grows by the requested quantity, and the cart is saved. -/
theorem postCart_on_split (catalog : Catalog) (now : Nat) (store : Store)
    (req : CartRequest) (product : Product) (cart : Cart)
    (pre : List CartItem) (line : CartItem) (post : List CartItem)
    (hprod : catalog req.productId = some product)
    (hcart : getCart store req.userId req.guestId = some cart)
    (hl : cart.products = pre ++ line :: post)
    (hidx : findIndex (sameLine req.productId req.size) cart.products = some pre.length) :
    postCart catalog now store req =
      (⟨200, .cart { cart with
          products := pre ++ { line with quantity := line.quantity + req.quantity } :: post
          totalPrice := .number (recalcTotal
            (pre ++ { line with quantity := line.quantity + req.quantity } :: post)) }⟩,
       save store { cart with
          products := pre ++ { line with quantity := line.quantity + req.quantity } :: post
          totalPrice := .number (recalcTotal
            (pre ++ { line with quantity := line.quantity + req.quantity } :: post)) }) := by
  unfold postCart
  simp only [hprod, hcart, hidx]
  rw [hl, modifyAt_append_cons]

/-- Update with a positive quantity on a cart whose first line with the key sits
after `pre`: that line's quantity becomes the requested quantity. -/
theorem putCart_on_split_pos (store : Store) (req : CartRequest) (cart : Cart)
    (pre : List CartItem) (line : CartItem) (post : List CartItem)
    (hcart : getCart store req.userId req.guestId = some cart)
    (hl : cart.products = pre ++ line :: post)
    (hidx : findIndex (sameLine req.productId req.size) cart.products = some pre.length)
    (hq : 0 < req.quantity) :
    putCart store req =
      (⟨200, .cart { cart with
          products := pre ++ { line with quantity := req.quantity } :: post
          totalPrice :=
            .number (recalcTotal (pre ++ { line with quantity := req.quantity } :: post)) }⟩,
       save store { cart with
          products := pre ++ { line with quantity := req.quantity } :: post
          totalPrice :=
            .number (recalcTotal (pre ++ { line with quantity := req.quantity } :: post)) }) := by
  unfold putCart
  simp only [hcart, hidx, gt_iff_lt, hq, if_true]
  rw [hl, modifyAt_append_cons]

/-- Update with a quantity that is not positive on a cart whose first line with
the key sits after `pre`: that line is spliced out. -/
theorem putCart_on_split_nonpos (store : Store) (req : CartRequest) (cart : Cart)
    (pre : List CartItem) (line : CartItem) (post : List CartItem)
    (hcart : getCart store req.userId req.guestId = some cart)
    (hl : cart.products = pre ++ line :: post)
    (hidx : findIndex (sameLine req.productId req.size) cart.products = some pre.length)
    (hq : req.quantity ≤ 0) :
    putCart store req =
      (⟨200, .cart { cart with
          products := pre ++ post, totalPrice := .number (recalcTotal (pre ++ post)) }⟩,
       save store { cart with
          products := pre ++ post, totalPrice := .number (recalcTotal (pre ++ post)) }) := by
  unfold putCart
  have hq1 : ¬ (0 < req.quantity) := by omega
  simp only [hcart, hidx, gt_iff_lt, hq1, if_false]
  rw [hl, splice1_append_cons]

/-- Remove on a cart whose first line with the key sits after `pre`: that line
is spliced out. -/
theorem deleteCart_on_split (store : Store) (req : CartRequest) (cart : Cart)
    (pre : List CartItem) (line : CartItem) (post : List CartItem)
    (hcart : getCart store req.userId req.guestId = some cart)
    (hl : cart.products = pre ++ line :: post)
    (hidx : findIndex (sameLine req.productId req.size) cart.products = some pre.length) :
    deleteCart store req =
      (⟨200, .cart { cart with
          products := pre ++ post, totalPrice := .number (recalcTotal (pre ++ post)) }⟩,
       save store { cart with
          products := pre ++ post, totalPrice := .number (recalcTotal (pre ++ post)) }) := by
  unfold deleteCart
  simp only [hcart, hidx]
  rw [hl, splice1_append_cons]

theorem save_length (store : Store) (c : Cart) : (save store c).length = store.length := by
  simp [save]

theorem putCart_no_cart (store : Store) (req : CartRequest)
    (hcart : getCart store req.userId req.guestId = none) :
    putCart store req = (cartNotFound, store) := by
  simp [putCart, hcart, cartNotFound]

theorem putCart_no_line (store : Store) (req : CartRequest) (cart : Cart)
    (hcart : getCart store req.userId req.guestId = some cart)
    (hline : ∀ l ∈ cart.products, ¬ (l.productId = req.productId ∧ l.size = req.size)) :
    putCart store req = (itemNotFound, store) := by
  simp [putCart, hcart, findIndex_none_of_no_line _ _ _ hline, itemNotFound]

theorem deleteCart_no_cart (store : Store) (req : CartRequest)
    (hcart : getCart store req.userId req.guestId = none) :
    deleteCart store req = (cartNotFound, store) := by
  simp [deleteCart, hcart, cartNotFound]

theorem deleteCart_no_line (store : Store) (req : CartRequest) (cart : Cart)
    (hcart : getCart store req.userId req.guestId = some cart)
    (hline : ∀ l ∈ cart.products, ¬ (l.productId = req.productId ∧ l.size = req.size)) :
    deleteCart store req = (itemNotFound, store) := by
  simp [deleteCart, hcart, findIndex_none_of_no_line _ _ _ hline, itemNotFound]

theorem putCart_status_of_line (store : Store) (req : CartRequest) (cart : Cart)
    (hcart : getCart store req.userId req.guestId = some cart)
    (hline : ∃ l ∈ cart.products, l.productId = req.productId ∧ l.size = req.size) :
    (putCart store req).1.status = 200 := by
  obtain ⟨pre, line, post, hl, _, _, _, hidx⟩ :=
    split_first_line req.productId req.size cart.products hline
  by_cases hq : 0 < req.quantity
  · rw [putCart_on_split_pos store req cart pre line post hcart hl hidx hq]
  · rw [putCart_on_split_nonpos store req cart pre line post hcart hl hidx (by omega)]

theorem deleteCart_status_of_line (store : Store) (req : CartRequest) (cart : Cart)
    (hcart : getCart store req.userId req.guestId = some cart)
    (hline : ∃ l ∈ cart.products, l.productId = req.productId ∧ l.size = req.size) :
    (deleteCart store req).1.status = 200 := by
  obtain ⟨pre, line, post, hl, _, _, _, hidx⟩ :=
    split_first_line req.productId req.size cart.products hline
  rw [deleteCart_on_split store req cart pre line post hcart hl hidx]

theorem cartNotFound_ne_itemNotFound : cartNotFound ≠ itemNotFound := by decide

/-- With unique keys, taking out the first line with a key leaves no line with it. -/
theorem no_line_after_splice (productId size : String) (pre : List CartItem)
    (line : CartItem) (post : List CartItem)
    (hnodup : ((pre ++ line :: post).map lineKey).Nodup)
    (hpre : ∀ y ∈ pre, ¬ (y.productId = productId ∧ y.size = size))
    (hid : line.productId = productId) (hsize : line.size = size) :
    ∀ y ∈ pre ++ post, ¬ (y.productId = productId ∧ y.size = size) := by
  intro y hy hk
  rcases List.mem_append.mp hy with hy | hy
  · exact hpre y hy hk
  · rw [List.map_append, List.map_cons, List.nodup_append] at hnodup
    have hnd := (List.nodup_cons.mp hnodup.2.1).1
    apply hnd
    have hkey : lineKey line = lineKey y := by
      simp [lineKey, hid, hsize, hk.1, hk.2]
    rw [hkey]
    exact List.mem_map_of_mem lineKey hy

/-! ## Properties of the cart aggregate -/

/-- C1: whenever Add, Update or Remove answers with a cart (the request
succeeded), that cart is in the store after the request and its `totalPrice` is
the sum over its lines of `price * quantity`, which is `0` when it has no line.
The Add case covers the cart created when none existed. -/
theorem totalPrice_after_mutation (catalog : Catalog) (now : Nat) (store : Store)
    (req : CartRequest) (out : Response × Store) (c : Cart)
    (hop : out = postCart catalog now store req ∨ out = putCart store req ∨
      out = deleteCart store req)
    (hok : out.1.body = .cart c) :
    c.totalPrice = .number (c.products.map (fun item => item.price * item.quantity)).sum ∧
      (c.products = [] → c.totalPrice = .number 0) ∧ c ∈ out.2 := by
  have key : c.totalPrice = .number (lineSum c.products) ∧ c ∈ out.2 := by
    rcases hop with h | h | h <;> subst h
    · exact postCart_success catalog now store req c hok
    · exact putCart_success store req c hok
    · exact deleteCart_success store req c hok
  refine ⟨key.1, ?_, key.2⟩
  intro hnil
  rw [key.1, hnil]
  rfl

theorem totalPrice_after_mutation_witness :
    (postCart sampleCatalog 0 [] (reqA 2)).1.body =
        .cart ⟨1, none, some "g1", [⟨"A", "Shirt", "a.png", 10, "M", 2⟩], .number 20⟩ ∧
      JsValue.number 20 = .number (([(⟨"A", "Shirt", "a.png", 10, "M", 2⟩ : CartItem)].map
        (fun item => item.price * item.quantity)).sum) :=
  ⟨by decide,
   (totalPrice_after_mutation sampleCatalog 0 [] (reqA 2) _
      ⟨1, none, some "g1", [⟨"A", "Shirt", "a.png", 10, "M", 2⟩], .number 20⟩
      (Or.inl rfl) (by decide)).1⟩

/-- C2: when the product is in the catalog and the resolved cart has a line with
the key `(productId, size)`, Add answers `200` with the cart in which the first
such line has its quantity increased by the requested quantity; the lines before
and after it, the number and order of lines, and the name, image and price of
that line are as before, whatever the catalog now says about the product. The
updated cart is saved and is what the owner resolves to afterwards. -/
theorem postCart_accumulates (catalog : Catalog) (now : Nat) (store : Store)
    (req : CartRequest) (product : Product) (cart : Cart)
    (hprod : catalog req.productId = some product)
    (hcart : getCart store req.userId req.guestId = some cart)
    (hline : ∃ l ∈ cart.products, l.productId = req.productId ∧ l.size = req.size) :
    ∃ pre line post, cart.products = pre ++ line :: post ∧
      (∀ y ∈ pre, ¬ (y.productId = req.productId ∧ y.size = req.size)) ∧
      line.productId = req.productId ∧ line.size = req.size ∧
      ∃ cart1 : Cart,
        cart1.products =
          pre ++ { line with quantity := line.quantity + req.quantity } :: post ∧
        cart1.products.length = cart.products.length ∧
        cart1._id = cart._id ∧ cart1.user = cart.user ∧ cart1.guestId = cart.guestId ∧
        postCart catalog now store req = (⟨200, .cart cart1⟩, save store cart1) ∧
        getCart (save store cart1) req.userId req.guestId = some cart1 := by
  obtain ⟨pre, line, post, hl, hpre, hid, hsize, hidx⟩ :=
    split_first_line req.productId req.size cart.products hline
  refine ⟨pre, line, post, hl, hpre, hid, hsize,
    { cart with
      products := pre ++ { line with quantity := line.quantity + req.quantity } :: post
      totalPrice := .number (recalcTotal
        (pre ++ { line with quantity := line.quantity + req.quantity } :: post)) },
    rfl, by simp [hl], rfl, rfl, rfl,
    postCart_on_split catalog now store req product cart pre line post hprod hcart hl hidx,
    getCart_save store _ _ cart _ hcart rfl rfl rfl⟩

theorem postCart_accumulates_witness :
    (postCart sampleCatalog 0 [] (reqA 2)).2 = [cartA 2] ∧
    (postCart changedCatalog 7 [cartA 2] (reqA 3)).1 = ⟨200, .cart (cartA 5)⟩ ∧
    ∃ pre line post, (cartA 2).products = pre ++ line :: post ∧
      (∀ y ∈ pre, ¬ (y.productId = (reqA 3).productId ∧ y.size = (reqA 3).size)) ∧
      line.productId = (reqA 3).productId ∧ line.size = (reqA 3).size ∧
      ∃ cart1 : Cart,
        cart1.products =
          pre ++ { line with quantity := line.quantity + (reqA 3).quantity } :: post ∧
        cart1.products.length = (cartA 2).products.length ∧
        cart1._id = (cartA 2)._id ∧ cart1.user = (cartA 2).user ∧
        cart1.guestId = (cartA 2).guestId ∧
        postCart changedCatalog 7 [cartA 2] (reqA 3) =
          (⟨200, .cart cart1⟩, save [cartA 2] cart1) ∧
        getCart (save [cartA 2] cart1) (reqA 3).userId (reqA 3).guestId = some cart1 :=
  ⟨by decide, by decide,
   postCart_accumulates changedCatalog 7 [cartA 2] (reqA 3) ⟨"Shirt v2", [⟨"b.png"⟩], 12⟩
     (cartA 2) (by decide) (by decide)
     ⟨⟨"A", "Shirt", "a.png", 10, "M", 2⟩, by decide, by decide⟩⟩

/-- C3: Add of product `B`, which is in the catalog with an empty `images` array,
to the cart of guest `g1`, which has no line `(B, M)`: reading
`product.images[0].url` throws, the answer is `500` and no line is appended. -/
theorem postCart_append_without_image :
    sampleCatalog "B" = some ⟨"Hat", [], 7⟩ ∧
    getCart [cartA 2] (reqB 1).userId (reqB 1).guestId = some (cartA 2) ∧
    (∀ l ∈ (cartA 2).products, ¬ (l.productId = "B" ∧ l.size = "M")) ∧
    postCart sampleCatalog 0 [cartA 2] (reqB 1) = (serverError, [cartA 2]) := by
  decide

/-- C4: Add of product `B`, which is in the catalog with an empty `images` array,
when no cart exists: the answer is `500`, not `201`, and no cart is created. -/
theorem postCart_create_without_image :
    sampleCatalog "B" = some ⟨"Hat", [], 7⟩ ∧
    getCart [] (reqB 1).userId (reqB 1).guestId = none ∧
    postCart sampleCatalog 0 [] (reqB 1) = (serverError, []) := by
  decide

/-- C5 as stated fails: an Add of quantity `0` for guest `g1` on the empty store
is answered `201` and creates a cart with a line of quantity `0`; an Add of
quantity `-3` on the cart holding `2` pieces is answered `200` and stores the
line with quantity `-1`. Neither request is rejected. -/
theorem postCart_nonpositive_quantity_accepted :
    (reqA 0).quantity ≤ 0 ∧
    postCart sampleCatalog 0 [] (reqA 0) = (⟨201, .cart (cartA 0)⟩, [cartA 0]) ∧
    (reqA (-3)).quantity ≤ 0 ∧
    postCart sampleCatalog 0 [cartA 2] (reqA (-3)) =
      (⟨200, .cart (cartA (-1))⟩, [cartA (-1)]) := by
  decide

/-- C5 amended: Add has no check of the quantity. For a quantity that is zero or
negative, the request is rejected with `ProductNotFound`, the store unchanged,
when the product is not in the catalog. When the product is in the catalog the
request is handled as for any quantity. If the resolved cart has a line with the
key, the answer is `200` with the cart in which the first such line has its
previous quantity plus the requested one, which is not more than before, and
all else as it was. If the resolved cart has no such line and the product has a
first image, the answer is `200` with the cart to which one line of the
requested quantity was pushed. If no cart resolves and the product has a first
image, the answer is `201` with a created cart whose only line has the
requested quantity. In each case the answered cart is what is stored. -/
theorem postCart_nonpositive_quantity (catalog : Catalog) (now : Nat) (store : Store)
    (req : CartRequest) (hq : req.quantity ≤ 0) :
    (catalog req.productId = none →
      postCart catalog now store req = (productNotFound, store)) ∧
    (∀ product cart, catalog req.productId = some product →
      getCart store req.userId req.guestId = some cart →
      (∃ l ∈ cart.products, l.productId = req.productId ∧ l.size = req.size) →
      ∃ pre line post, cart.products = pre ++ line :: post ∧
        (∀ y ∈ pre, ¬ (y.productId = req.productId ∧ y.size = req.size)) ∧
        line.productId = req.productId ∧ line.size = req.size ∧
        line.quantity + req.quantity ≤ line.quantity ∧
        postCart catalog now store req =
          (⟨200, .cart { cart with
              products :=
                pre ++ { line with quantity := line.quantity + req.quantity } :: post
              totalPrice := .number (lineSum
                (pre ++ { line with quantity := line.quantity + req.quantity } :: post)) }⟩,
           save store { cart with
              products :=
                pre ++ { line with quantity := line.quantity + req.quantity } :: post
              totalPrice := .number (lineSum
                (pre ++ { line with quantity := line.quantity + req.quantity } :: post)) })) ∧
    (∀ product img rest cart, catalog req.productId = some product →
      product.images = img :: rest →
      getCart store req.userId req.guestId = some cart →
      (∀ l ∈ cart.products, ¬ (l.productId = req.productId ∧ l.size = req.size)) →
      postCart catalog now store req =
        (⟨200, .cart { cart with
            products := cart.products ++
              [⟨req.productId, product.name, img.url, product.price, req.size, req.quantity⟩]
            totalPrice := .number (lineSum (cart.products ++
              [⟨req.productId, product.name, img.url, product.price, req.size,
                req.quantity⟩])) }⟩,
         save store { cart with
            products := cart.products ++
              [⟨req.productId, product.name, img.url, product.price, req.size, req.quantity⟩]
            totalPrice := .number (lineSum (cart.products ++
              [⟨req.productId, product.name, img.url, product.price, req.size,
                req.quantity⟩])) })) ∧
    (∀ product img rest, catalog req.productId = some product →
      product.images = img :: rest →
      getCart store req.userId req.guestId = none →
      postCart catalog now store req =
        (⟨201, .cart
          { _id := freshId store
            user := if truthy req.userId then req.userId else none
            guestId := if truthy req.guestId then req.guestId
                       else some ("guest_" ++ toString now)
            products :=
              [⟨req.productId, product.name, img.url, product.price, req.size, req.quantity⟩]
            totalPrice := .number (product.price * req.quantity) }⟩,
         store ++
          [{ _id := freshId store
             user := if truthy req.userId then req.userId else none
             guestId := if truthy req.guestId then req.guestId
                        else some ("guest_" ++ toString now)
             products :=
               [⟨req.productId, product.name, img.url, product.price, req.size,
                 req.quantity⟩]
             totalPrice := .number (product.price * req.quantity) }])) := by
  refine ⟨?_, ?_, ?_, ?_⟩
  · intro hnone
    simp [postCart, hnone, productNotFound]
  · intro product cart hprod hcart hline
    obtain ⟨pre, line, post, hl, hpre, hid, hsize, hidx⟩ :=
      split_first_line req.productId req.size cart.products hline
    refine ⟨pre, line, post, hl, hpre, hid, hsize, by omega, ?_⟩
    rw [postCart_on_split catalog now store req product cart pre line post hprod hcart hl hidx,
      recalcTotal_eq_lineSum]
  · intro product img rest cart hprod himg hcart hline
    have hidx := findIndex_none_of_no_line req.productId req.size cart.products hline
    unfold postCart
    simp only [hprod, hcart, hidx, newLine_eq_some product req img rest himg,
      recalcTotal_eq_lineSum]
  · intro product img rest hprod himg hcart
    unfold postCart
    simp only [hprod, hcart, newLine_eq_some product req img rest himg, create]

theorem postCart_nonpositive_quantity_witness :
    (reqA (-3)).quantity ≤ 0 ∧
    postCart sampleCatalog 0 [cartA 2] (reqA (-3)) =
      (⟨200, .cart (cartA (-1))⟩, [cartA (-1)]) ∧
    ∃ pre line post, (cartA 2).products = pre ++ line :: post ∧
      (∀ y ∈ pre, ¬ (y.productId = (reqA (-3)).productId ∧ y.size = (reqA (-3)).size)) ∧
      line.productId = (reqA (-3)).productId ∧ line.size = (reqA (-3)).size ∧
      line.quantity + (reqA (-3)).quantity ≤ line.quantity ∧
      postCart sampleCatalog 0 [cartA 2] (reqA (-3)) =
        (⟨200, .cart { cartA 2 with
            products :=
              pre ++ { line with quantity := line.quantity + (reqA (-3)).quantity } :: post
            totalPrice := .number (lineSum
              (pre ++ { line with quantity := line.quantity + (reqA (-3)).quantity }
                :: post)) }⟩,
         save [cartA 2] { cartA 2 with
            products :=
              pre ++ { line with quantity := line.quantity + (reqA (-3)).quantity } :: post
            totalPrice := .number (lineSum
              (pre ++ { line with quantity := line.quantity + (reqA (-3)).quantity }
                :: post)) }) :=
  ⟨by decide, by decide,
   (postCart_nonpositive_quantity sampleCatalog 0 [cartA 2] (reqA (-3)) (by decide)).2.1
     ⟨"Shirt", [⟨"a.png"⟩], 10⟩ (cartA 2) (by decide) (by decide)
     ⟨⟨"A", "Shirt", "a.png", 10, "M", 2⟩, by decide, by decide⟩⟩

/-- C6: when the resolved cart has a line with the key `(productId, size)` and
the requested quantity is positive, Update answers `200` with the cart in which
the first such line has exactly the requested quantity, whatever it was before;
the number and order of lines, the lines before and after it, and the other
fields of that line are as before. The cart is saved and is what the owner
resolves to afterwards. -/
theorem putCart_sets_quantity (store : Store) (req : CartRequest) (cart : Cart)
    (hcart : getCart store req.userId req.guestId = some cart)
    (hline : ∃ l ∈ cart.products, l.productId = req.productId ∧ l.size = req.size)
    (hq : 0 < req.quantity) :
    ∃ pre line post, cart.products = pre ++ line :: post ∧
      (∀ y ∈ pre, ¬ (y.productId = req.productId ∧ y.size = req.size)) ∧
      line.productId = req.productId ∧ line.size = req.size ∧
      ∃ cart1 : Cart,
        cart1.products = pre ++ { line with quantity := req.quantity } :: post ∧
        cart1.products.length = cart.products.length ∧
        cart1._id = cart._id ∧ cart1.user = cart.user ∧ cart1.guestId = cart.guestId ∧
        putCart store req = (⟨200, .cart cart1⟩, save store cart1) ∧
        getCart (save store cart1) req.userId req.guestId = some cart1 := by
  obtain ⟨pre, line, post, hl, hpre, hid, hsize, hidx⟩ :=
    split_first_line req.productId req.size cart.products hline
  exact ⟨pre, line, post, hl, hpre, hid, hsize,
    { cart with
      products := pre ++ { line with quantity := req.quantity } :: post
      totalPrice := .number (recalcTotal (pre ++ { line with quantity := req.quantity } :: post)) },
    rfl, by simp [hl], rfl, rfl, rfl,
    putCart_on_split_pos store req cart pre line post hcart hl hidx hq,
    getCart_save store _ _ cart _ hcart rfl rfl rfl⟩

theorem putCart_sets_quantity_witness :
    (putCart [cartA 5] (reqA 2)).1 = ⟨200, .cart (cartA 2)⟩ ∧
    ∃ pre line post, (cartA 5).products = pre ++ line :: post ∧
      (∀ y ∈ pre, ¬ (y.productId = (reqA 2).productId ∧ y.size = (reqA 2).size)) ∧
      line.productId = (reqA 2).productId ∧ line.size = (reqA 2).size ∧
      ∃ cart1 : Cart,
        cart1.products = pre ++ { line with quantity := (reqA 2).quantity } :: post ∧
        cart1.products.length = (cartA 5).products.length ∧
        cart1._id = (cartA 5)._id ∧ cart1.user = (cartA 5).user ∧
        cart1.guestId = (cartA 5).guestId ∧
        putCart [cartA 5] (reqA 2) = (⟨200, .cart cart1⟩, save [cartA 5] cart1) ∧
        getCart (save [cartA 5] cart1) (reqA 2).userId (reqA 2).guestId = some cart1 :=
  ⟨by decide,
   putCart_sets_quantity [cartA 5] (reqA 2) (cartA 5) (by decide)
     ⟨⟨"A", "Shirt", "a.png", 10, "M", 5⟩, by decide, by decide⟩ (by decide)⟩

/-- C7: when the resolved cart has a line with the key `(productId, size)` and
the requested quantity is zero or negative, Update answers `200` with the cart
from which the first such line has been taken out, the other lines in their
order. The cart document stays in the store (the store keeps its number of
documents and the owner still resolves to the cart); when the removed line was
the only one, the cart returned and stored has no line and `totalPrice` 0. -/
theorem putCart_removes_line (store : Store) (req : CartRequest) (cart : Cart)
    (hcart : getCart store req.userId req.guestId = some cart)
    (hline : ∃ l ∈ cart.products, l.productId = req.productId ∧ l.size = req.size)
    (hq : req.quantity ≤ 0) :
    ∃ pre line post, cart.products = pre ++ line :: post ∧
      (∀ y ∈ pre, ¬ (y.productId = req.productId ∧ y.size = req.size)) ∧
      line.productId = req.productId ∧ line.size = req.size ∧
      ∃ cart1 : Cart,
        cart1.products = pre ++ post ∧
        cart1._id = cart._id ∧ cart1.user = cart.user ∧ cart1.guestId = cart.guestId ∧
        putCart store req = (⟨200, .cart cart1⟩, save store cart1) ∧
        getCart (save store cart1) req.userId req.guestId = some cart1 ∧
        cart1 ∈ save store cart1 ∧ (save store cart1).length = store.length ∧
        (cart.products = [line] → cart1.products = [] ∧ cart1.totalPrice = .number 0) := by
  obtain ⟨pre, line, post, hl, hpre, hid, hsize, hidx⟩ :=
    split_first_line req.productId req.size cart.products hline
  refine ⟨pre, line, post, hl, hpre, hid, hsize,
    { cart with products := pre ++ post, totalPrice := .number (recalcTotal (pre ++ post)) },
    rfl, rfl, rfl, rfl,
    putCart_on_split_nonpos store req cart pre line post hcart hl hidx hq,
    getCart_save store _ _ cart _ hcart rfl rfl rfl,
    mem_save_of_mem store cart _ (getCart_mem store _ _ cart hcart) rfl,
    save_length store _, ?_⟩
  intro hone
  rw [hl] at hone
  have hpp : pre = [] ∧ post = [] := by
    cases pre with
    | nil => simpa using hone
    | cons a as =>
      have := congrArg List.length hone
      simp at this
  obtain ⟨rfl, rfl⟩ := hpp
  exact ⟨rfl, rfl⟩

theorem putCart_removes_line_witness :
    (putCart [cartA 1] (reqA 0)) =
      (⟨200, .cart ⟨1, none, some "g1", [], .number 0⟩⟩,
       [⟨1, none, some "g1", [], .number 0⟩]) ∧
    ∃ pre line post, (cartA 1).products = pre ++ line :: post ∧
      (∀ y ∈ pre, ¬ (y.productId = (reqA 0).productId ∧ y.size = (reqA 0).size)) ∧
      line.productId = (reqA 0).productId ∧ line.size = (reqA 0).size ∧
      ∃ cart1 : Cart,
        cart1.products = pre ++ post ∧
        cart1._id = (cartA 1)._id ∧ cart1.user = (cartA 1).user ∧
        cart1.guestId = (cartA 1).guestId ∧
        putCart [cartA 1] (reqA 0) = (⟨200, .cart cart1⟩, save [cartA 1] cart1) ∧
        getCart (save [cartA 1] cart1) (reqA 0).userId (reqA 0).guestId = some cart1 ∧
        cart1 ∈ save [cartA 1] cart1 ∧ (save [cartA 1] cart1).length = [cartA 1].length ∧
        ((cartA 1).products = [line] → cart1.products = [] ∧ cart1.totalPrice = .number 0) :=
  ⟨by decide,
   putCart_removes_line [cartA 1] (reqA 0) (cartA 1) (by decide)
     ⟨⟨"A", "Shirt", "a.png", 10, "M", 1⟩, by decide, by decide⟩ (by decide)⟩

/-- C8: when the resolved cart has a line with the key `(productId, size)`,
Remove answers `200` with the cart from which exactly the first such line has
been taken out, whatever its quantity: the list is one line shorter and the
other lines are unchanged and in their order. The cart is saved and is what
the owner resolves to afterwards. -/
theorem deleteCart_removes_line (store : Store) (req : CartRequest) (cart : Cart)
    (hcart : getCart store req.userId req.guestId = some cart)
    (hline : ∃ l ∈ cart.products, l.productId = req.productId ∧ l.size = req.size) :
    ∃ pre line post, cart.products = pre ++ line :: post ∧
      (∀ y ∈ pre, ¬ (y.productId = req.productId ∧ y.size = req.size)) ∧
      line.productId = req.productId ∧ line.size = req.size ∧
      ∃ cart1 : Cart,
        cart1.products = pre ++ post ∧
        cart1.products.length + 1 = cart.products.length ∧
        cart1._id = cart._id ∧ cart1.user = cart.user ∧ cart1.guestId = cart.guestId ∧
        deleteCart store req = (⟨200, .cart cart1⟩, save store cart1) ∧
        getCart (save store cart1) req.userId req.guestId = some cart1 := by
  obtain ⟨pre, line, post, hl, hpre, hid, hsize, hidx⟩ :=
    split_first_line req.productId req.size cart.products hline
  exact ⟨pre, line, post, hl, hpre, hid, hsize,
    { cart with products := pre ++ post, totalPrice := .number (recalcTotal (pre ++ post)) },
    rfl, by simp [hl]; omega, rfl, rfl, rfl,
    deleteCart_on_split store req cart pre line post hcart hl hidx,
    getCart_save store _ _ cart _ hcart rfl rfl rfl⟩

theorem deleteCart_removes_line_witness :
    (deleteCart [cartA 1, cartU] (reqU 0)).1 =
      ⟨200, .cart ⟨4, some "u1", none,
        [⟨"A", "Shirt", "a.png", 10, "M", 2⟩, ⟨"C", "Cap", "c.png", 5, "M", 3⟩],
        .number 35⟩⟩ ∧
    ∃ pre line post, cartU.products = pre ++ line :: post ∧
      (∀ y ∈ pre, ¬ (y.productId = (reqU 0).productId ∧ y.size = (reqU 0).size)) ∧
      line.productId = (reqU 0).productId ∧ line.size = (reqU 0).size ∧
      ∃ cart1 : Cart,
        cart1.products = pre ++ post ∧
        cart1.products.length + 1 = cartU.products.length ∧
        cart1._id = cartU._id ∧ cart1.user = cartU.user ∧ cart1.guestId = cartU.guestId ∧
        deleteCart [cartA 1, cartU] (reqU 0) =
          (⟨200, .cart cart1⟩, save [cartA 1, cartU] cart1) ∧
        getCart (save [cartA 1, cartU] cart1) (reqU 0).userId (reqU 0).guestId
          = some cart1 :=
  ⟨by decide,
   deleteCart_removes_line [cartA 1, cartU] (reqU 0) cartU (by decide)
     ⟨⟨"A", "Shirt", "a.png", 10, "L", 1⟩, by decide, by decide⟩⟩

/-- C9: Update and Remove answer `CartNotFound` exactly when the owner resolves to
no cart, and `ItemNotFound` exactly when the owner resolves to a cart none of
whose lines has the key `(productId, size)`; with either answer the store is
the store as it was. -/
theorem update_remove_failures (store : Store) (req : CartRequest) :
    ((putCart store req).1 = cartNotFound ↔
        getCart store req.userId req.guestId = none) ∧
    ((putCart store req).1 = itemNotFound ↔
        ∃ cart, getCart store req.userId req.guestId = some cart ∧
          ∀ l ∈ cart.products, ¬ (l.productId = req.productId ∧ l.size = req.size)) ∧
    ((deleteCart store req).1 = cartNotFound ↔
        getCart store req.userId req.guestId = none) ∧
    ((deleteCart store req).1 = itemNotFound ↔
        ∃ cart, getCart store req.userId req.guestId = some cart ∧
          ∀ l ∈ cart.products, ¬ (l.productId = req.productId ∧ l.size = req.size)) ∧
    ((putCart store req).1 = cartNotFound ∨ (putCart store req).1 = itemNotFound →
        (putCart store req).2 = store) ∧
    ((deleteCart store req).1 = cartNotFound ∨ (deleteCart store req).1 = itemNotFound →
        (deleteCart store req).2 = store) := by
  cases hcart : getCart store req.userId req.guestId with
  | none =>
    have hp := putCart_no_cart store req hcart
    have hd := deleteCart_no_cart store req hcart
    simp [hp, hd, cartNotFound_ne_itemNotFound]
  | some cart =>
    by_cases hline : ∃ l ∈ cart.products, l.productId = req.productId ∧ l.size = req.size
    · have hp := putCart_status_of_line store req cart hcart hline
      have hd := deleteCart_status_of_line store req cart hcart hline
      have hp1 : (putCart store req).1 ≠ cartNotFound := by
        intro h; rw [h] at hp; revert hp; decide
      have hp2 : (putCart store req).1 ≠ itemNotFound := by
        intro h; rw [h] at hp; revert hp; decide
      have hd1 : (deleteCart store req).1 ≠ cartNotFound := by
        intro h; rw [h] at hd; revert hd; decide
      have hd2 : (deleteCart store req).1 ≠ itemNotFound := by
        intro h; rw [h] at hd; revert hd; decide
      have hno : ¬ ∀ l ∈ cart.products,
          ¬ (l.productId = req.productId ∧ l.size = req.size) := by
        intro h
        obtain ⟨l, hl, hk⟩ := hline
        exact h l hl hk
      simp only [hp1, hp2, hd1, hd2, false_iff, false_or, false_implies, and_true,
        Option.some.injEq, exists_eq_left', hno, not_false_eq_true, true_and]
      simp
    · have hno : ∀ l ∈ cart.products,
          ¬ (l.productId = req.productId ∧ l.size = req.size) := by
        intro l hl hk
        exact hline ⟨l, hl, hk⟩
      have hp := putCart_no_line store req cart hcart hno
      have hd := deleteCart_no_line store req cart hcart hno
      simp only [hp, hd, Ne.symm cartNotFound_ne_itemNotFound, false_iff, true_iff,
        Option.some.injEq, exists_eq_left', or_true, true_implies, and_true, true_and]
      exact ⟨by simp, hno, by simp, hno⟩

/-- C10: when no two lines of the resolved cart share a key and the cart has a
line with the key `(productId, size)`, Remove succeeds once, and every further
Remove with the same request answers `ItemNotFound` and leaves the store, hence
the cart with its lines and `totalPrice`, exactly as the first Remove left it. -/
theorem deleteCart_repeated (store : Store) (req : CartRequest) (cart : Cart)
    (hcart : getCart store req.userId req.guestId = some cart)
    (hline : ∃ l ∈ cart.products, l.productId = req.productId ∧ l.size = req.size)
    (hnodup : (cart.products.map lineKey).Nodup) :
    ∃ cart1 : Cart,
      deleteCart store req = (⟨200, .cart cart1⟩, save store cart1) ∧
      getCart (save store cart1) req.userId req.guestId = some cart1 ∧
      ∀ n : Nat,
        deleteCart ((fun s => (deleteCart s req).2)^[n] (save store cart1)) req
          = (itemNotFound, save store cart1) := by
  obtain ⟨pre, line, post, hl, hpre, hid, hsize, hidx⟩ :=
    split_first_line req.productId req.size cart.products hline
  have hget := getCart_save store req.userId req.guestId cart
    { cart with products := pre ++ post, totalPrice := .number (recalcTotal (pre ++ post)) }
    hcart rfl rfl rfl
  have hsecond := deleteCart_no_line _ req _ hget
    (no_line_after_splice req.productId req.size pre line post (hl ▸ hnodup) hpre hid hsize)
  refine ⟨_, deleteCart_on_split store req cart pre line post hcart hl hidx, hget, ?_⟩
  intro n
  have hfix : (fun s => (deleteCart s req).2)^[n]
      (save store { cart with products := pre ++ post,
                              totalPrice := .number (recalcTotal (pre ++ post)) })
      = save store { cart with products := pre ++ post,
                               totalPrice := .number (recalcTotal (pre ++ post)) } := by
    apply Function.iterate_fixed
    simp only [hsecond]
  rw [hfix, hsecond]

theorem deleteCart_repeated_witness :
    (cartU.products.map lineKey).Nodup ∧
    ∃ cart1 : Cart,
      deleteCart [cartA 1, cartU] (reqU 0) =
        (⟨200, .cart cart1⟩, save [cartA 1, cartU] cart1) ∧
      getCart (save [cartA 1, cartU] cart1) (reqU 0).userId (reqU 0).guestId
        = some cart1 ∧
      ∀ n : Nat,
        deleteCart ((fun s => (deleteCart s (reqU 0)).2)^[n]
            (save [cartA 1, cartU] cart1)) (reqU 0)
          = (itemNotFound, save [cartA 1, cartU] cart1) :=
  ⟨by decide,
   deleteCart_repeated [cartA 1, cartU] (reqU 0) cartU (by decide)
     ⟨⟨"A", "Shirt", "a.png", 10, "L", 1⟩, by decide, by decide⟩ (by decide)⟩

/-! ## Lemmas on the merge handler -/

theorem findIndex_append_cons {α : Type} (p : α → Bool) (pre : List α) (x : α)
    (post : List α) (hpre : ∀ y ∈ pre, p y = false) (hx : p x = true) :
    findIndex p (pre ++ x :: post) = some pre.length := by
  induction pre with
  | nil => simp [findIndex, hx]
  | cons a as ih =>
    have ha : p a = false := hpre a (List.mem_cons_self _ _)
    have ih1 := ih (fun y hy => hpre y (List.mem_cons_of_mem _ hy))
    simp [findIndex, ha, ih1]

theorem sameLine_eq_true_iff_key (a b : CartItem) :
    sameLine a.productId a.size b = true ↔ lineKey b = lineKey a := by
  simp [sameLine, lineKey]

theorem sameLine_eq_false_of_key (a b : CartItem) (h : lineKey b ≠ lineKey a) :
    sameLine a.productId a.size b = false := by
  cases hs : sameLine a.productId a.size b with
  | false => rfl
  | true => exact absurd ((sameLine_eq_true_iff_key a b).mp hs) h

theorem lineKey_mergedLine (G : List CartItem) (u : CartItem) :
    lineKey (mergedLine G u) = lineKey u := by
  unfold mergedLine
  split <;> rfl

theorem mergedLine_nil (u : CartItem) : mergedLine [] u = u := by
  simp [mergedLine]

theorem mergedLine_append_of_ne (G : List CartItem) (g u : CartItem)
    (h : lineKey g ≠ lineKey u) : mergedLine (G ++ [g]) u = mergedLine G u := by
  unfold mergedLine
  have hg : sameLine u.productId u.size g = false := sameLine_eq_false_of_key u g h
  simp [List.find?_append, hg]

theorem mergedLine_append_of_eq (G : List CartItem) (g u : CartItem)
    (h : lineKey g = lineKey u) (hG : lineKey g ∉ G.map lineKey) :
    mergedLine G u = u ∧
      mergedLine (G ++ [g]) u = { u with quantity := u.quantity + g.quantity } := by
  have hg : sameLine u.productId u.size g = true := (sameLine_eq_true_iff_key u g).mpr h
  have hnone : G.find? (sameLine u.productId u.size) = none := by
    rw [List.find?_eq_none]
    intro x hx hs
    apply hG
    rw [h, ← (sameLine_eq_true_iff_key u x).mp hs]
    exact List.mem_map_of_mem lineKey hx
  unfold mergedLine
  simp [List.find?_append, hnone, hg]

theorem mergeItem_spec_step (U G : List CartItem) (g : CartItem)
    (hU : (U.map lineKey).Nodup) (hg : lineKey g ∉ G.map lineKey) :
    mergeItem (mergedLinesSpec U G) g = mergedLinesSpec U (G ++ [g]) := by
  by_cases hin : ∃ u ∈ U, u.productId = g.productId ∧ u.size = g.size
  · -- the guest key is the key of a user line
    obtain ⟨pre, u0, post, hsplit, hpre, hid, hsize, _⟩ :=
      split_first_line g.productId g.size U hin
    have hkey0 : lineKey g = lineKey u0 := by simp [lineKey, hid, hsize]
    have hnd := hU
    rw [hsplit, List.map_append, List.map_cons, List.nodup_append] at hnd
    have hprek : ∀ y ∈ pre, lineKey g ≠ lineKey y := by
      intro y hy h
      apply hpre y hy
      simpa [lineKey] using h.symm
    have hpostk : ∀ y ∈ post, lineKey g ≠ lineKey y := by
      intro y hy h
      apply (List.nodup_cons.mp hnd.2.1).1
      rw [← hkey0, h]
      exact List.mem_map_of_mem lineKey hy
    obtain ⟨h0, h1⟩ := mergedLine_append_of_eq G g u0 hkey0 hg
    have hany : U.any (sameLine g.productId g.size) = true := by
      rw [List.any_eq_true]
      exact ⟨u0, by simp [hsplit], (sameLine_iff _ _ _).mpr ⟨hid, hsize⟩⟩
    have hidx : findIndex (sameLine g.productId g.size) (mergedLinesSpec U G)
        = some (pre.map (mergedLine G)).length := by
      unfold mergedLinesSpec
      rw [hsplit, List.map_append, List.map_cons, List.append_assoc, List.cons_append]
      apply findIndex_append_cons
      · intro y hy
        obtain ⟨x, hx, rfl⟩ := List.mem_map.mp hy
        apply sameLine_eq_false_of_key
        rw [lineKey_mergedLine]
        exact fun h => hprek x hx h.symm
      · rw [h0]
        exact (sameLine_iff _ _ _).mpr ⟨hid, hsize⟩
    unfold mergeItem
    rw [hidx]
    simp only
    unfold mergedLinesSpec
    rw [hsplit, List.map_append, List.map_cons, List.append_assoc, List.cons_append,
      modifyAt_append_cons, List.filter_append, List.map_append, List.map_cons,
      List.append_assoc, List.cons_append]
    have e1 : pre.map (mergedLine (G ++ [g])) = pre.map (mergedLine G) :=
      List.map_congr_left (fun y hy => mergedLine_append_of_ne G g y (hprek y hy))
    have e2 : post.map (mergedLine (G ++ [g])) = post.map (mergedLine G) :=
      List.map_congr_left (fun y hy => mergedLine_append_of_ne G g y (hpostk y hy))
    rw [e1, e2, h0, h1, ← hsplit]
    simp [hany]
  · -- the guest key is new
    have hno : ∀ u ∈ U, lineKey g ≠ lineKey u := by
      intro u hu h
      apply hin
      refine ⟨u, hu, ?_⟩
      simpa [lineKey] using h.symm
    have hany : U.any (sameLine g.productId g.size) = false := by
      rw [Bool.eq_false_iff]
      intro h
      rw [List.any_eq_true] at h
      obtain ⟨u, hu, hs⟩ := h
      exact hno u hu ((sameLine_eq_true_iff_key g u).mp hs).symm
    have hidx : findIndex (sameLine g.productId g.size) (mergedLinesSpec U G) = none := by
      rw [findIndex_eq_none]
      intro y hy
      apply sameLine_eq_false_of_key
      unfold mergedLinesSpec at hy
      rcases List.mem_append.mp hy with hy | hy
      · obtain ⟨x, hx, rfl⟩ := List.mem_map.mp hy
        rw [lineKey_mergedLine]
        exact fun h => hno x hx h.symm
      · have hyG := (List.mem_filter.mp hy).1
        intro h
        apply hg
        rw [← h]
        exact List.mem_map_of_mem lineKey hyG
    unfold mergeItem
    rw [hidx]
    simp only
    unfold mergedLinesSpec
    have e1 : U.map (mergedLine (G ++ [g])) = U.map (mergedLine G) :=
      List.map_congr_left (fun y hy => mergedLine_append_of_ne G g y (hno y hy))
    rw [e1, List.filter_append]
    simp [hany]

/-- With unique keys in both carts, the `forEach` of the merge handler produces
the merged lines of the specification. -/
theorem mergeItems_eq_spec (U G : List CartItem)
    (hU : (U.map lineKey).Nodup) (hG : (G.map lineKey).Nodup) :
    mergeItems U G = mergedLinesSpec U G := by
  induction G using List.reverseRecOn with
  | nil =>
    simp [mergeItems, mergedLinesSpec]
    conv_lhs => rw [← List.map_id U]
    exact List.map_congr_left (fun u _ => (mergedLine_nil u).symm)
  | append_singleton G g ih =>
    rw [List.map_append, List.nodup_append] at hG
    have hg : lineKey g ∉ G.map lineKey := by
      intro h
      exact hG.2.2 h (by simp)
    have hfold : mergeItems U (G ++ [g]) = mergeItem (mergeItems U G) g := by
      simp [mergeItems, List.foldl_append]
    rw [hfold, ih hG.1, mergeItem_spec_step U G g hU hg]

theorem jsAdd_not_number (v : JsValue) (k : Int) (hv : ∀ n, v ≠ .number n) :
    ∀ n, jsAdd v k ≠ .number n := by
  intro n
  cases v with
  | number a => exact absurd rfl (hv a)
  | object item => simp [jsAdd]
  | concat left m => simp [jsAdd]

theorem foldl_jsAdd_not_number (rest : List CartItem) (v : JsValue)
    (hv : ∀ n, v ≠ .number n) :
    ∀ n, rest.foldl (fun acc item => jsAdd acc (item.price * item.quantity)) v
      ≠ .number n := by
  induction rest generalizing v with
  | nil => simpa using hv
  | cons x xs ih =>
    simp only [List.foldl_cons]
    exact ih _ (jsAdd_not_number v _ hv)

/-- On a non-empty array the `reduce` without initial value returns a value, and
that value is never a number. -/
theorem reduceNoInit_of_ne_nil (products : List CartItem) (h : products ≠ []) :
    ∃ total, reduceNoInit products = some total ∧ ∀ n, total ≠ .number n := by
  cases products with
  | nil => exact absurd rfl h
  | cons first rest =>
    exact ⟨_, rfl, foldl_jsAdd_not_number rest (.object first) (by simp)⟩

theorem mergeItem_ne_nil (products : List CartItem) (g : CartItem) :
    mergeItem products g ≠ [] := by
  unfold mergeItem
  cases hi : findIndex (sameLine g.productId g.size) products with
  | none => simp
  | some i =>
    obtain ⟨pre, x, post, hl, hlen, _, _⟩ := findIndex_eq_some _ products i hi
    simp only
    rw [hl, ← hlen, modifyAt_append_cons]
    simp

theorem foldl_mergeItem_ne_nil (G U : List CartItem) (h : U ≠ []) :
    G.foldl mergeItem U ≠ [] := by
  induction G generalizing U with
  | nil => simpa using h
  | cons g gs ih => exact ih _ (mergeItem_ne_nil U g)

theorem mergeItems_ne_nil (U G : List CartItem) (h : G ≠ []) : mergeItems U G ≠ [] := by
  cases G with
  | nil => exact absurd rfl h
  | cons g gs => exact foldl_mergeItem_ne_nil gs _ (mergeItem_ne_nil U g)

theorem castsToNumber_eq_false (v : JsValue) (h : ∀ n, v ≠ .number n) :
    castsToNumber v = false := by
  cases v with
  | number a => exact absurd rfl (h a)
  | object item => rfl
  | concat left m => rfl

/-- The merge of a non-empty guest cart into an existing user cart: the total
that the `reduce` without initial value returns is never a number, so the save
of the user cart throws and the answer is `500` with the store as it was. -/
theorem mergeCart_both (deleteOk : Bool) (store : Store) (guestId : Option String)
    (userId : String) (guestCart userCart : Cart)
    (hguest : findOne (fun c => c.guestId == guestId) store = some guestCart)
    (hne : guestCart.products ≠ [])
    (huser : findOne (fun c => c.user == some userId) store = some userCart) :
    ∃ total, reduceNoInit (mergeItems userCart.products guestCart.products) = some total ∧
      (∀ n, total ≠ .number n) ∧
      mergeCart deleteOk store guestId userId = (serverError, store) := by
  obtain ⟨total, htotal, hnum⟩ := reduceNoInit_of_ne_nil _
    (mergeItems_ne_nil userCart.products guestCart.products hne)
  refine ⟨total, htotal, hnum, ?_⟩
  have hlen : ¬ guestCart.products.length = 0 := by
    simpa [List.length_eq_zero] using hne
  have hcast := castsToNumber_eq_false total hnum
  unfold mergeCart
  simp only [hguest, huser, hlen, if_false, htotal, hcast, Bool.false_eq_true]

theorem mergeCart_transfer (deleteOk : Bool) (store : Store) (guestId : Option String)
    (userId : String) (guestCart : Cart)
    (hguest : findOne (fun c => c.guestId == guestId) store = some guestCart)
    (hne : guestCart.products ≠ [])
    (huser : findOne (fun c => c.user == some userId) store = none) :
    mergeCart deleteOk store guestId userId =
      (⟨200, .cart { guestCart with user := some userId, guestId := none }⟩,
       save store { guestCart with user := some userId, guestId := none }) := by
  have hlen : ¬ guestCart.products.length = 0 := by
    simpa [List.length_eq_zero] using hne
  unfold mergeCart
  simp only [hguest, huser, hlen, if_false]

theorem mergeCart_empty (deleteOk : Bool) (store : Store) (guestId : Option String)
    (userId : String) (guestCart : Cart)
    (hguest : findOne (fun c => c.guestId == guestId) store = some guestCart)
    (hempty : guestCart.products = []) :
    mergeCart deleteOk store guestId userId = (emptyGuestCart, store) := by
  unfold mergeCart
  simp [hguest, hempty, emptyGuestCart]

theorem mergeCart_no_guest_user (deleteOk : Bool) (store : Store)
    (guestId : Option String) (userId : String) (userCart : Cart)
    (hguest : findOne (fun c => c.guestId == guestId) store = none)
    (huser : findOne (fun c => c.user == some userId) store = some userCart) :
    mergeCart deleteOk store guestId userId = (⟨200, .cart userCart⟩, store) := by
  unfold mergeCart
  simp only [hguest, huser]

theorem mergeCart_nothing (deleteOk : Bool) (store : Store)
    (guestId : Option String) (userId : String)
    (hguest : findOne (fun c => c.guestId == guestId) store = none)
    (huser : findOne (fun c => c.user == some userId) store = none) :
    mergeCart deleteOk store guestId userId = (nothingToMerge, store) := by
  unfold mergeCart
  simp only [hguest, huser, nothingToMerge]

theorem mem_save (store : Store) (c1 d : Cart) (h : d ∈ save store c1) :
    d = c1 ∨ (d ∈ store ∧ d._id ≠ c1._id) := by
  simp only [save, List.mem_map] at h
  obtain ⟨x, hx, rfl⟩ := h
  by_cases hid : x._id = c1._id
  · simp [hid]
  · simp [hid, hx]

/-- When no stored document satisfies a filter and the saved document does,
`findOne` after `save` finds the saved document. -/
theorem find?_save_new (p : Cart → Bool) (store : Store) (c c1 : Cart)
    (hnone : ∀ d ∈ store, p d = false) (hc : c ∈ store) (hid : c1._id = c._id)
    (hp : p c1 = true) :
    (save store c1).find? p = some c1 := by
  induction store with
  | nil => simp at hc
  | cons d ds ih =>
    simp only [save, List.map_cons] at ih ⊢
    by_cases hd : d._id = c1._id
    · simp [hd, hp]
    · have hpd : p d = false := hnone d (List.mem_cons_self _ _)
      have hc1 : c ∈ ds := by
        rcases List.mem_cons.mp hc with h | h
        · exact absurd (h ▸ hid.symm) hd
        · exact h
      simp only [hd, if_false, List.find?_cons, hpd]
      exact ih (fun x hx => hnone x (List.mem_cons_of_mem _ hx)) hc1

theorem findOne_mem (p : Cart → Bool) (store : Store) (c : Cart)
    (h : findOne p store = some c) : c ∈ store ∧ p c = true :=
  ⟨List.mem_of_find?_eq_some h, List.find?_some h⟩

/-- A merge of a non-empty guest cart that is answered `200` is a merge for a
user without cart. -/
theorem mergeCart_ok_no_user (deleteOk : Bool) (store : Store) (guestId : Option String)
    (userId : String) (guestCart : Cart)
    (hguest : findOne (fun c => c.guestId == guestId) store = some guestCart)
    (hne : guestCart.products ≠ [])
    (hok : (mergeCart deleteOk store guestId userId).1.status = 200) :
    findOne (fun c => c.user == some userId) store = none := by
  cases huser : findOne (fun c => c.user == some userId) store with
  | none => rfl
  | some userCart =>
    obtain ⟨total, _, _, h⟩ :=
      mergeCart_both deleteOk store guestId userId guestCart userCart hguest hne huser
    rw [h] at hok
    simp [serverError] at hok

/-- When the guest cart is the only document with the guest id, no document has
the guest id after the guest cart was handed over to the user. -/
theorem guest_gone_after_transfer (store : Store) (g userId : String) (guestCart : Cart)
    (huniq : ∀ d ∈ store, d.guestId = some g → d = guestCart) :
    findOne (fun c => c.guestId == some g)
      (save store { guestCart with user := some userId, guestId := none }) = none := by
  simp only [findOne]
  rw [List.find?_eq_none]
  intro d hd hpg
  have hdg : d.guestId = some g := by simpa using hpg
  rcases mem_save store _ d hd with rfl | ⟨hmem, hid⟩
  · simp at hdg
  · exact hid (by rw [huniq d hmem hdg])

/-- After the guest cart was handed over to a user without cart, the user resolves
to it. -/
theorem user_found_after_transfer (store : Store) (guestId : Option String)
    (userId : String) (guestCart : Cart)
    (hguest : findOne (fun c => c.guestId == guestId) store = some guestCart)
    (huser : findOne (fun c => c.user == some userId) store = none) :
    findOne (fun c => c.user == some userId)
      (save store { guestCart with user := some userId, guestId := none })
      = some { guestCart with user := some userId, guestId := none } := by
  have hnone : ∀ d ∈ store, (fun c : Cart => c.user == some userId) d = false := by
    intro d hd
    simpa using List.find?_eq_none.mp huser d hd
  exact find?_save_new _ store guestCart _ hnone (findOne_mem _ store guestCart hguest).1
    rfl (by simp)

/-- What Merge leaves in the store: the store as it was, or the guest cart saved
with the user as its owner and its lines as they were. -/
theorem mergeCart_store_cases (deleteOk : Bool) (store : Store)
    (guestId : Option String) (userId : String) :
    (mergeCart deleteOk store guestId userId).2 = store ∨
    (∃ guestCart, guestCart ∈ store ∧
      (mergeCart deleteOk store guestId userId).2 =
        save store { guestCart with user := some userId, guestId := none }) := by
  cases hguest : findOne (fun c => c.guestId == guestId) store with
  | none =>
    cases huser : findOne (fun c => c.user == some userId) store with
    | none => exact Or.inl (by rw [mergeCart_nothing deleteOk store guestId userId hguest huser])
    | some userCart =>
      exact Or.inl
        (by rw [mergeCart_no_guest_user deleteOk store guestId userId userCart hguest huser])
  | some guestCart =>
    have hgm := (findOne_mem _ store guestCart hguest).1
    by_cases hne : guestCart.products = []
    · exact Or.inl (by rw [mergeCart_empty deleteOk store guestId userId guestCart hguest hne])
    · cases huser : findOne (fun c => c.user == some userId) store with
      | none =>
        refine Or.inr ⟨guestCart, hgm, ?_⟩
        rw [mergeCart_transfer deleteOk store guestId userId guestCart hguest hne huser]
      | some userCart =>
        obtain ⟨total, _, _, h⟩ :=
          mergeCart_both deleteOk store guestId userId guestCart userCart hguest hne huser
        exact Or.inl (by rw [h])

/-! ## Properties of the merge and of the owner keys -/

/-- C11: when a non-empty guest cart and a user cart are found and, in each, no
two lines share a key, the `forEach` of Merge builds the lines of the claim in
memory (the user lines in their order, each increased by the guest line of its
key, then the guest lines of new keys), but the total assigned next is not a
number, the save of the user cart throws, and Merge answers `500` with the
store as it was: no user cart with those lines is produced. -/
theorem mergeCart_merged_lines_not_saved (deleteOk : Bool) (store : Store)
    (guestId : Option String) (userId : String) (guestCart userCart : Cart)
    (hguest : findOne (fun c => c.guestId == guestId) store = some guestCart)
    (hne : guestCart.products ≠ [])
    (huser : findOne (fun c => c.user == some userId) store = some userCart)
    (hgk : (guestCart.products.map lineKey).Nodup)
    (huk : (userCart.products.map lineKey).Nodup) :
    mergeItems userCart.products guestCart.products
      = mergedLinesSpec userCart.products guestCart.products ∧
    mergeCart deleteOk store guestId userId = (serverError, store) ∧
    serverError.status = 500 := by
  obtain ⟨total, _, _, h⟩ :=
    mergeCart_both deleteOk store guestId userId guestCart userCart hguest hne huser
  exact ⟨mergeItems_eq_spec _ _ huk hgk, h, rfl⟩

theorem mergeCart_merged_lines_not_saved_witness :
    mergedLinesSpec (cartUA 3).products (cartA 2).products
      = [⟨"A", "Shirt", "a.png", 10, "M", 5⟩] ∧
    mergeCart true [cartA 1, cartB 1] (some "g1") "u1"
      = (serverError, [cartA 1, cartB 1]) ∧
    mergeItems (cartUA 3).products (cartA 2).products
      = mergedLinesSpec (cartUA 3).products (cartA 2).products ∧
    mergeCart true [cartA 2, cartUA 3] (some "g1") "u1"
      = (serverError, [cartA 2, cartUA 3]) ∧
    serverError.status = 500 :=
  ⟨by decide, by decide,
   mergeCart_merged_lines_not_saved true [cartA 2, cartUA 3] (some "g1") "u1" (cartA 2)
     (cartUA 3) (by decide) (by decide) (by decide) (by decide) (by decide)⟩

/-- C12: whenever a non-empty guest cart is merged into an existing user cart,
the value that the handler computes for `totalPrice` is not a number, so it is
not the sum of `price * quantity` over the merged lines: the `reduce` of the
merge handler has no initial value and starts from the first line object. The
value does not cast to a number, the save throws, and Merge answers `500` with
the store as it was, so no cart with the sum as total is returned or saved. -/
theorem mergeCart_total_not_number (deleteOk : Bool) (store : Store)
    (guestId : Option String) (userId : String) (guestCart userCart : Cart)
    (hguest : findOne (fun c => c.guestId == guestId) store = some guestCart)
    (hne : guestCart.products ≠ [])
    (huser : findOne (fun c => c.user == some userId) store = some userCart) :
    ∃ total : JsValue,
      reduceNoInit (mergeItems userCart.products guestCart.products) = some total ∧
      (∀ n : Int, total ≠ .number n) ∧
      total ≠ .number (lineSum (mergeItems userCart.products guestCart.products)) ∧
      castsToNumber total = false ∧
      (mergeCart deleteOk store guestId userId).1 = serverError ∧
      (mergeCart deleteOk store guestId userId).2 = store := by
  obtain ⟨total, htotal, hnum, h⟩ :=
    mergeCart_both deleteOk store guestId userId guestCart userCart hguest hne huser
  exact ⟨total, htotal, hnum, hnum _, castsToNumber_eq_false total hnum, by rw [h], by rw [h]⟩

theorem mergeCart_total_not_number_witness :
    reduceNoInit (mergeItems (cartB 1).products (cartA 1).products)
      = some (.concat (.object ⟨"B", "Hat", "b.png", 7, "L", 1⟩) 10) ∧
    lineSum (mergeItems (cartB 1).products (cartA 1).products) = 17 ∧
    ∃ total : JsValue,
      reduceNoInit (mergeItems (cartB 1).products (cartA 1).products) = some total ∧
      (∀ n : Int, total ≠ .number n) ∧
      total ≠ .number (lineSum (mergeItems (cartB 1).products (cartA 1).products)) ∧
      castsToNumber total = false ∧
      (mergeCart true [cartA 1, cartB 1] (some "g1") "u1").1 = serverError ∧
      (mergeCart true [cartA 1, cartB 1] (some "g1") "u1").2 = [cartA 1, cartB 1] :=
  ⟨by decide, by decide,
   mergeCart_total_not_number true [cartA 1, cartB 1] (some "g1") "u1" (cartA 1) (cartB 1)
     (by decide) (by decide) (by decide)⟩

/-- C13: whenever the guest cart is found and has no line, Merge answers
`EmptyGuestCart` (status 400), whether or not the user has a cart, and the store,
hence the guest cart and the user cart, is as it was. -/
theorem mergeCart_empty_guest (deleteOk : Bool) (store : Store)
    (guestId : Option String) (userId : String) (guestCart : Cart)
    (hguest : findOne (fun c => c.guestId == guestId) store = some guestCart)
    (hempty : guestCart.products.length = 0) :
    mergeCart deleteOk store guestId userId = (emptyGuestCart, store) ∧
      emptyGuestCart.status = 400 :=
  ⟨mergeCart_empty deleteOk store guestId userId guestCart hguest
    (List.length_eq_zero.mp hempty), rfl⟩

theorem mergeCart_empty_guest_witness :
    findOne (fun c => c.user == some "u1") [emptyCartG, cartB 1] = some (cartB 1) ∧
    findOne (fun c => c.user == some "u1") [emptyCartG] = none ∧
    mergeCart true [emptyCartG] (some "g1") "u1" = (emptyGuestCart, [emptyCartG]) ∧
    mergeCart true [emptyCartG, cartB 1] (some "g1") "u1"
        = (emptyGuestCart, [emptyCartG, cartB 1]) ∧
      emptyGuestCart.status = 400 :=
  ⟨by decide, by decide, by decide,
   mergeCart_empty_guest true [emptyCartG, cartB 1] (some "g1") "u1" emptyCartG
     (by decide) (by decide)⟩

/-- C14: whenever no guest cart is found for the guest id, Merge answers `200`
with the user's cart as it is stored if the user has one, and `NothingToMerge`
(status 404) otherwise; in both cases the store is as it was. -/
theorem mergeCart_without_guest (deleteOk : Bool) (store : Store)
    (guestId : Option String) (userId : String)
    (hguest : findOne (fun c => c.guestId == guestId) store = none) :
    (∀ userCart, findOne (fun c => c.user == some userId) store = some userCart →
      mergeCart deleteOk store guestId userId = (⟨200, .cart userCart⟩, store) ∧
        userCart ∈ store) ∧
    (findOne (fun c => c.user == some userId) store = none →
      mergeCart deleteOk store guestId userId = (nothingToMerge, store)) ∧
    nothingToMerge.status = 404 :=
  ⟨fun userCart huser =>
    ⟨mergeCart_no_guest_user deleteOk store guestId userId userCart hguest huser,
     (findOne_mem _ store userCart huser).1⟩,
   fun huser => mergeCart_nothing deleteOk store guestId userId hguest huser, rfl⟩

theorem mergeCart_without_guest_witness :
    mergeCart true [cartB 1] (some "g1") "u1" = (⟨200, .cart (cartB 1)⟩, [cartB 1]) ∧
    mergeCart true [cartB 1] (some "g1") "u2" = (nothingToMerge, [cartB 1]) :=
  ⟨((mergeCart_without_guest true [cartB 1] (some "g1") "u1" (by decide)).1
      (cartB 1) (by decide)).1,
   (mergeCart_without_guest true [cartB 1] (some "g1") "u2" (by decide)).2.1 (by decide)⟩

/-- C15: when a non-empty guest cart is found and the user has no cart, Merge
answers `200` with that same document (same `_id`), its `user` set to the user
id, its `guestId` cleared, and its lines and `totalPrice` as they were. The
document is saved in place: the store has as many documents as before, and the
user now resolves to it. -/
theorem mergeCart_transfers_ownership (deleteOk : Bool) (store : Store)
    (guestId : Option String) (userId : String) (guestCart : Cart)
    (hguest : findOne (fun c => c.guestId == guestId) store = some guestCart)
    (hne : guestCart.products ≠ [])
    (huser : findOne (fun c => c.user == some userId) store = none) :
    ∃ cart1 : Cart,
      cart1._id = guestCart._id ∧ cart1.user = some userId ∧ cart1.guestId = none ∧
      cart1.products = guestCart.products ∧ cart1.totalPrice = guestCart.totalPrice ∧
      mergeCart deleteOk store guestId userId = (⟨200, .cart cart1⟩, save store cart1) ∧
      (save store cart1).length = store.length ∧
      findOne (fun c => c.user == some userId) (save store cart1) = some cart1 := by
  refine ⟨{ guestCart with user := some userId, guestId := none }, rfl, rfl, rfl, rfl, rfl,
    mergeCart_transfer deleteOk store guestId userId guestCart hguest hne huser,
    save_length store _, ?_⟩
  have hnone : ∀ d ∈ store, (fun c : Cart => c.user == some userId) d = false := by
    intro d hd
    have := List.find?_eq_none.mp huser d hd
    simpa using this
  exact find?_save_new _ store guestCart _ hnone (findOne_mem _ store guestCart hguest).1
    rfl (by simp)

theorem mergeCart_transfers_ownership_witness :
    mergeCart true [cartA 1] (some "g1") "u1" =
      (⟨200, .cart ⟨1, some "u1", none, [⟨"A", "Shirt", "a.png", 10, "M", 1⟩],
          .number 10⟩⟩,
       [⟨1, some "u1", none, [⟨"A", "Shirt", "a.png", 10, "M", 1⟩], .number 10⟩]) ∧
    ∃ cart1 : Cart,
      cart1._id = (cartA 1)._id ∧ cart1.user = some "u1" ∧ cart1.guestId = none ∧
      cart1.products = (cartA 1).products ∧ cart1.totalPrice = (cartA 1).totalPrice ∧
      mergeCart true [cartA 1] (some "g1") "u1"
        = (⟨200, .cart cart1⟩, save [cartA 1] cart1) ∧
      (save [cartA 1] cart1).length = [cartA 1].length ∧
      findOne (fun c => c.user == some "u1") (save [cartA 1] cart1) = some cart1 :=
  ⟨by decide,
   mergeCart_transfers_ownership true [cartA 1] (some "g1") "u1" (cartA 1)
     (by decide) (by decide) (by decide)⟩

/-- C16 as stated fails: guest `g1` adds a product, then user `u1` adds one with a
request that also carries `g1`, which creates the cart of `u1` with `guestId`
`g1`. Merge of `g1` by user `u2`, who has no cart, is answered `200` and hands the
guest's document over to `u2`; a lookup by `g1` afterwards finds the cart of `u1`. -/
theorem mergeCart_guest_id_still_resolves :
    (postCart sampleCatalog 5 (postCart sampleCatalog 5 [] (reqA 1)).2 (reqBoth 1)).2
      = [cartA 1, cartBoth 2 1] ∧
    findOne (fun c => c.guestId == some "g1") [cartA 1, cartBoth 2 1] = some (cartA 1) ∧
    mergeCart true [cartA 1, cartBoth 2 1] (some "g1") "u2" =
      (⟨200, .cart ⟨1, some "u2", none, [⟨"A", "Shirt", "a.png", 10, "M", 1⟩],
          .number 10⟩⟩,
       [⟨1, some "u2", none, [⟨"A", "Shirt", "a.png", 10, "M", 1⟩], .number 10⟩,
        cartBoth 2 1]) ∧
    getCart (mergeCart true [cartA 1, cartBoth 2 1] (some "g1") "u2").2 none (some "g1")
      = some (cartBoth 2 1) := by
  decide

/-- C16 amended: when the non-empty guest cart is the only stored cart that carries
the guest id and Merge is answered `200`, a lookup by that guest id afterwards
finds nothing: the guest document has its `guestId` cleared and its `user` set,
and it is what the user resolves to. -/
theorem mergeCart_guest_unresolvable (deleteOk : Bool) (store : Store)
    (g userId : String) (guestCart : Cart)
    (hguest : findOne (fun c => c.guestId == some g) store = some guestCart)
    (hne : guestCart.products ≠ [])
    (huniq : ∀ d ∈ store, d.guestId = some g → d = guestCart)
    (hok : (mergeCart deleteOk store (some g) userId).1.status = 200) :
    findOne (fun c => c.guestId == some g) (mergeCart deleteOk store (some g) userId).2
      = none ∧
    getCart (mergeCart deleteOk store (some g) userId).2 none (some g) = none ∧
    findOne (fun c => c.user == some userId) (mergeCart deleteOk store (some g) userId).2
      = some { guestCart with user := some userId, guestId := none } := by
  have huser := mergeCart_ok_no_user deleteOk store (some g) userId guestCart hguest hne hok
  have h := mergeCart_transfer deleteOk store (some g) userId guestCart hguest hne huser
  have hgone := guest_gone_after_transfer store g userId guestCart huniq
  rw [h]
  refine ⟨hgone, ?_, user_found_after_transfer store (some g) userId guestCart hguest huser⟩
  unfold getCart
  simp only [truthy, Bool.false_eq_true, if_false, hgone, ite_self]

theorem mergeCart_guest_unresolvable_witness :
    (mergeCart true [cartA 1, cartB 1] (some "g1") "u2").1.status = 200 ∧
    findOne (fun c => c.guestId == some "g1")
      (mergeCart true [cartA 1, cartB 1] (some "g1") "u2").2 = none ∧
    getCart (mergeCart true [cartA 1, cartB 1] (some "g1") "u2").2 none (some "g1")
      = none ∧
    findOne (fun c => c.user == some "u2")
      (mergeCart true [cartA 1, cartB 1] (some "g1") "u2").2
      = some { cartA 1 with user := some "u2", guestId := none } :=
  ⟨by decide,
   mergeCart_guest_unresolvable true [cartA 1, cartB 1] "g1" "u2" (cartA 1)
     (by decide) (by decide) (by decide) (by decide)⟩

/-- C17 as stated fails: with the carts of guest `g1` and of user `u1`, the latter
created by an Add that also carried `g1`, Merge of `g1` by user `u2` is answered
`200` and re-owns the guest's document; the same Merge again finds the cart of
`u1` as guest cart and the cart of `u2` as user cart, and is answered `500`. -/
theorem mergeCart_retry_fails :
    (postCart sampleCatalog 5 (postCart sampleCatalog 5 [] (reqA 1)).2 (reqBoth 1)).2
      = [cartA 1, cartBoth 2 1] ∧
    (mergeCart true [cartA 1, cartBoth 2 1] (some "g1") "u2").1.status = 200 ∧
    (mergeCart true [cartA 1, cartBoth 2 1] (some "g1") "u2").2 =
      [⟨1, some "u2", none, [⟨"A", "Shirt", "a.png", 10, "M", 1⟩], .number 10⟩,
       cartBoth 2 1] ∧
    mergeCart true (mergeCart true [cartA 1, cartBoth 2 1] (some "g1") "u2").2
        (some "g1") "u2" =
      (serverError, (mergeCart true [cartA 1, cartBoth 2 1] (some "g1") "u2").2) := by
  decide

/-- C17 amended: when the non-empty guest cart is the only stored cart that carries
the guest id and Merge is answered `200`, a second Merge with the same guest id
and user, whether its delete would succeed or not, is answered `200` with the
same cart, hence the same lines, quantities and `totalPrice`, and leaves the
store as the first Merge left it. -/
theorem mergeCart_retry (store : Store) (g userId : String) (guestCart : Cart)
    (hguest : findOne (fun c => c.guestId == some g) store = some guestCart)
    (hne : guestCart.products ≠ [])
    (huniq : ∀ d ∈ store, d.guestId = some g → d = guestCart)
    (hok : (mergeCart true store (some g) userId).1.status = 200) :
    ∀ deleteOk : Bool,
      mergeCart deleteOk (mergeCart true store (some g) userId).2 (some g) userId
        = mergeCart true store (some g) userId ∧
      (mergeCart deleteOk (mergeCart true store (some g) userId).2 (some g) userId).1.status
        = 200 := by
  intro deleteOk
  have huser := mergeCart_ok_no_user true store (some g) userId guestCart hguest hne hok
  have h := mergeCart_transfer true store (some g) userId guestCart hguest hne huser
  have hgone := guest_gone_after_transfer store g userId guestCart huniq
  have hu := user_found_after_transfer store (some g) userId guestCart hguest huser
  have h2 := mergeCart_no_guest_user deleteOk _ (some g) userId _ hgone hu
  rw [h, h2]
  exact ⟨rfl, rfl⟩

theorem mergeCart_retry_witness :
    (mergeCart true [cartA 1, cartB 1] (some "g1") "u2").1.status = 200 ∧
    ∀ deleteOk : Bool,
      mergeCart deleteOk (mergeCart true [cartA 1, cartB 1] (some "g1") "u2").2
          (some "g1") "u2"
        = mergeCart true [cartA 1, cartB 1] (some "g1") "u2" ∧
      (mergeCart deleteOk (mergeCart true [cartA 1, cartB 1] (some "g1") "u2").2
          (some "g1") "u2").1.status = 200 :=
  ⟨by decide,
   mergeCart_retry [cartA 1, cartB 1] "g1" "u2" (cartA 1)
     (by decide) (by decide) (by decide) (by decide)⟩

/-- C18: when a non-empty guest cart is merged into an existing user cart, the
write of the user cart does not succeed, whether the delete of the guest cart
would fail or not: the total assigned before `save()` is not a number, the save
throws, and Merge answers `500` instead of success, with the guest cart and the
user cart as they were. Repeated Merges are answered the same way and leave the
user cart with the quantities it had. -/
theorem mergeCart_failed_delete (store : Store) (guestId : Option String)
    (userId : String) (guestCart userCart : Cart)
    (hguest : findOne (fun c => c.guestId == guestId) store = some guestCart)
    (hne : guestCart.products ≠ [])
    (huser : findOne (fun c => c.user == some userId) store = some userCart) :
    (∀ deleteOk : Bool, mergeCart deleteOk store guestId userId = (serverError, store)) ∧
    ∀ n : Nat,
      (fun s => (mergeCart false s guestId userId).2)^[n] store = store ∧
      findOne (fun c => c.user == some userId)
        ((fun s => (mergeCart false s guestId userId).2)^[n] store) = some userCart := by
  have h : ∀ deleteOk : Bool,
      mergeCart deleteOk store guestId userId = (serverError, store) := by
    intro deleteOk
    obtain ⟨total, _, _, h⟩ :=
      mergeCart_both deleteOk store guestId userId guestCart userCart hguest hne huser
    exact h
  refine ⟨h, fun n => ?_⟩
  have hfix : (fun s => (mergeCart false s guestId userId).2)^[n] store = store := by
    apply Function.iterate_fixed
    simp only [h false]
  rw [hfix]
  exact ⟨rfl, huser⟩

theorem mergeCart_failed_delete_witness :
    (∀ deleteOk : Bool,
      mergeCart deleteOk [cartA 2, cartUA 3] (some "g1") "u1"
        = (serverError, [cartA 2, cartUA 3])) ∧
    ∀ n : Nat,
      (fun s => (mergeCart false s (some "g1") "u1").2)^[n] [cartA 2, cartUA 3]
        = [cartA 2, cartUA 3] ∧
      findOne (fun c => c.user == some "u1")
        ((fun s => (mergeCart false s (some "g1") "u1").2)^[n] [cartA 2, cartUA 3])
        = some (cartUA 3) :=
  mergeCart_failed_delete [cartA 2, cartUA 3] (some "g1") "u1" (cartA 2) (cartUA 3)
    (by decide) (by decide) (by decide)

/-- C19 as stated fails: the cart that Add creates for a request carrying the user
id `u1` and no guest id has the user `u1` and the generated guest id `guest_5`. -/
theorem postCart_user_cart_has_guest_id :
    postCart sampleCatalog 5 [] (reqUserOnly 1) =
      (⟨201, .cart ⟨1, some "u1", some "guest_5",
          [⟨"A", "Shirt", "a.png", 10, "M", 1⟩], .number 10⟩⟩,
       [⟨1, some "u1", some "guest_5", [⟨"A", "Shirt", "a.png", 10, "M", 1⟩],
          .number 10⟩]) ∧
    ¬ oneOwnerKey ⟨1, some "u1", some "guest_5",
        [⟨"A", "Shirt", "a.png", 10, "M", 1⟩], .number 10⟩ := by
  refine ⟨by decide, ?_⟩
  unfold oneOwnerKey
  decide

/-- C19 amended: every cart that Add creates has a guest id, the one of the request
or a generated one, and has a user exactly when the request carries a user id;
so it has exactly one owner key only when the request carries no user id. A
cart that Merge hands over to a user without cart has the user and no guest
id, and every cart that is in the store after a Merge and was not there before
is such a cart. -/
theorem owner_keys_of_saved_carts :
    (∀ (catalog : Catalog) (now : Nat) (store : Store) (req : CartRequest) (c : Cart),
      (postCart catalog now store req).1 = ⟨201, .cart c⟩ →
        c.guestId.isSome = true ∧
        c.user = (if truthy req.userId then req.userId else none) ∧
        (oneOwnerKey c ↔ truthy req.userId = false)) ∧
    (∀ (deleteOk : Bool) (store : Store) (guestId : Option String) (userId : String)
        (guestCart : Cart),
      findOne (fun c => c.guestId == guestId) store = some guestCart →
      guestCart.products ≠ [] →
      findOne (fun c => c.user == some userId) store = none →
        ∃ c, (mergeCart deleteOk store guestId userId).1 = ⟨200, .cart c⟩ ∧
          c.user = some userId ∧ c.guestId = none ∧ oneOwnerKey c) ∧
    (∀ (deleteOk : Bool) (store : Store) (guestId : Option String) (userId : String)
        (c : Cart),
      c ∈ (mergeCart deleteOk store guestId userId).2 → c ∉ store →
        c.user = some userId ∧ c.guestId = none ∧ oneOwnerKey c) := by
  refine ⟨?_, ?_, ?_⟩
  · intro catalog now store req c hc
    have hshape : c.guestId = (if truthy req.guestId then req.guestId
          else some ("guest_" ++ toString now)) ∧
        c.user = (if truthy req.userId then req.userId else none) := by
      unfold postCart at hc
      cases hp : catalog req.productId with
      | none => simp [hp] at hc
      | some product =>
        cases hcart : getCart store req.userId req.guestId with
        | some cart =>
          cases hi : findIndex (sameLine req.productId req.size) cart.products with
          | some idx => simp [hp, hcart, hi] at hc
          | none =>
            cases hl : newLine product req with
            | none => simp [hp, hcart, hi, hl, serverError] at hc
            | some line => simp [hp, hcart, hi, hl] at hc
        | none =>
          cases hl : newLine product req with
          | none => simp [hp, hcart, hl, serverError] at hc
          | some line =>
            simp only [hp, hcart, hl, Response.mk.injEq, Body.cart.injEq, true_and] at hc
            subst hc
            exact ⟨rfl, rfl⟩
    obtain ⟨hg, hu⟩ := hshape
    have hgs : c.guestId.isSome = true := by
      rw [hg]
      cases hgid : req.guestId with
      | none => simp [truthy]
      | some s =>
        by_cases ht : truthy (some s) = true
        · simp [ht]
        · simp [ht]
    refine ⟨hgs, hu, ?_⟩
    unfold oneOwnerKey
    cases huid : req.userId with
    | none =>
      rw [huid] at hu
      simp [truthy] at hu ⊢
      exact Or.inr ⟨by simpa using hgs, hu⟩
    | some s =>
      rw [huid] at hu
      by_cases ht : truthy (some s) = true
      · simp only [ht, if_true] at hu
        have hgn : c.guestId ≠ none := by
          intro h
          rw [h] at hgs
          simp at hgs
        simp [ht, hu, hgn]
      · simp only [ht, if_false] at hu
        have ht' : truthy (some s) = false := by simpa using ht
        simp only [ht', iff_true]
        exact Or.inr ⟨hgs, hu⟩
  · intro deleteOk store guestId userId guestCart hguest hne huser
    refine ⟨{ guestCart with user := some userId, guestId := none }, ?_, rfl, rfl, ?_⟩
    · rw [mergeCart_transfer deleteOk store guestId userId guestCart hguest hne huser]
    · exact Or.inl ⟨rfl, rfl⟩
  · intro deleteOk store guestId userId c hc hnew
    rcases mergeCart_store_cases deleteOk store guestId userId with h | h
    · rw [h] at hc
      exact absurd hc hnew
    · obtain ⟨guestCart, _, h⟩ := h
      rw [h] at hc
      rcases mem_save store _ c hc with rfl | ⟨hmem, _⟩
      · exact ⟨rfl, rfl, Or.inl ⟨rfl, rfl⟩⟩
      · exact absurd hmem hnew

theorem owner_keys_of_saved_carts_witness :
    (postCart sampleCatalog 5 [] (reqBoth 1)).1 = ⟨201, .cart (cartBoth 1 1)⟩ ∧
    (cartBoth 1 1).guestId.isSome = true ∧
    (cartBoth 1 1).user = (if truthy (reqBoth 1).userId then (reqBoth 1).userId else none) ∧
    (oneOwnerKey (cartBoth 1 1) ↔ truthy (reqBoth 1).userId = false) :=
  ⟨by decide,
   owner_keys_of_saved_carts.1 sampleCatalog 5 [] (reqBoth 1) (cartBoth 1 1) (by decide)⟩

/-- C20: `getCart` looks the cart up by user whenever the user id is present (a
non-empty string), whatever the guest id, so the result is not-found when no
cart has that user even if a cart has the guest id; it looks up by guest id
only when the user id is absent and the guest id present; and the result is
`null` when neither is present or when no cart matches. -/
theorem getCart_resolution (store : Store) (userId guestId : Option String) :
    (truthy userId = true →
      getCart store userId guestId = findOne (fun c => c.user == userId) store ∧
      ((∀ c ∈ store, c.user ≠ userId) → getCart store userId guestId = none)) ∧
    (truthy userId = false → truthy guestId = true →
      getCart store userId guestId = findOne (fun c => c.guestId == guestId) store ∧
      ((∀ c ∈ store, c.guestId ≠ guestId) → getCart store userId guestId = none)) ∧
    (truthy userId = false → truthy guestId = false →
      getCart store userId guestId = none) := by
  refine ⟨?_, ?_, ?_⟩
  · intro hu
    have h : getCart store userId guestId = findOne (fun c => c.user == userId) store := by
      simp [getCart, hu]
    refine ⟨h, fun hall => ?_⟩
    rw [h, findOne, List.find?_eq_none]
    intro c hc
    simpa using hall c hc
  · intro hu hg
    have h : getCart store userId guestId
        = findOne (fun c => c.guestId == guestId) store := by
      simp [getCart, hu, hg]
    refine ⟨h, fun hall => ?_⟩
    rw [h, findOne, List.find?_eq_none]
    intro c hc
    simpa using hall c hc
  · intro hu hg
    simp [getCart, hu, hg]

theorem getCart_resolution_witness :
    getCart [cartA 1] (some "u1") (some "g1") = none ∧
    getCart [cartA 1] none (some "g1") = some (cartA 1) ∧
    getCart [cartA 1] (some "") (some "g1") = some (cartA 1) ∧
    getCart [cartA 1] none none = none :=
  ⟨((getCart_resolution [cartA 1] (some "u1") (some "g1")).1 (by decide)).2 (by decide),
   by decide, by decide,
   (getCart_resolution [cartA 1] none none).2.2 (by decide) (by decide)⟩

/-! ## Lemmas on what the handlers leave in the store -/

theorem forall_save {P : Cart → Prop} (store : Store) (c1 : Cart)
    (h : ∀ c ∈ store, P c) (h1 : P c1) : ∀ c ∈ save store c1, P c := by
  intro c hc
  rcases mem_save store c1 c hc with rfl | ⟨hmem, _⟩
  · exact h1
  · exact h c hmem

theorem forall_create {P : Cart → Prop} (store : Store) (c1 : Cart)
    (h : ∀ c ∈ store, P c) (h1 : P c1) : ∀ c ∈ create store c1, P c := by
  intro c hc
  simp only [create, List.mem_append, List.mem_singleton] at hc
  rcases hc with hc | rfl
  · exact h c hc
  · exact h1

theorem forall_modifyAt {α : Type} {P : α → Prop} (f : α → α) (l : List α) (i : Nat)
    (h : ∀ x ∈ l, P x) (hf : ∀ x ∈ l, P (f x)) : ∀ x ∈ modifyAt f l i, P x := by
  induction l generalizing i with
  | nil => simp [modifyAt]
  | cons a as ih =>
    cases i with
    | zero =>
      intro x hx
      simp only [modifyAt, List.mem_cons] at hx
      rcases hx with rfl | hx
      · exact hf a (List.mem_cons_self _ _)
      · exact h x (List.mem_cons_of_mem _ hx)
    | succ j =>
      intro x hx
      simp only [modifyAt, List.mem_cons] at hx
      rcases hx with rfl | hx
      · exact h _ (List.mem_cons_self _ _)
      · exact ih j (fun y hy => h y (List.mem_cons_of_mem _ hy))
          (fun y hy => hf y (List.mem_cons_of_mem _ hy)) x hx

theorem map_modifyAt {α β : Type} (g : α → β) (f : α → α) (l : List α) (i : Nat)
    (hf : ∀ x, g (f x) = g x) : (modifyAt f l i).map g = l.map g := by
  induction l generalizing i with
  | nil => simp [modifyAt]
  | cons a as ih =>
    cases i with
    | zero => simp [modifyAt, hf]
    | succ j => simp [modifyAt, ih]

theorem mem_splice1 {α : Type} (l : List α) (i : Nat) (x : α) (h : x ∈ splice1 l i) :
    x ∈ l :=
  (List.eraseIdx_sublist l i).subset h

theorem nodup_map_splice1 {α β : Type} (g : α → β) (l : List α) (i : Nat)
    (h : (l.map g).Nodup) : ((splice1 l i).map g).Nodup :=
  h.sublist ((List.eraseIdx_sublist l i).map g)

theorem newLine_fields (product : Product) (req : CartRequest) (line : CartItem)
    (h : newLine product req = some line) :
    line.productId = req.productId ∧ line.size = req.size ∧
      line.quantity = req.quantity := by
  unfold newLine at h
  split at h
  · simp at h
  · simp only [Option.some.injEq] at h
    subst h
    exact ⟨rfl, rfl, rfl⟩

/-- Pushing a line whose key no line of the list has keeps the keys distinct. -/
theorem nodup_keys_push (l : List CartItem) (line : CartItem)
    (h : (l.map lineKey).Nodup)
    (hidx : findIndex (sameLine line.productId line.size) l = none) :
    ((l ++ [line]).map lineKey).Nodup := by
  rw [List.map_append, List.map_singleton, List.nodup_append]
  refine ⟨h, List.nodup_singleton _, ?_⟩
  intro k hk hk1
  rw [List.mem_singleton] at hk1
  subst hk1
  obtain ⟨x, hx, hxk⟩ := List.mem_map.mp hk
  have hfalse := (findIndex_eq_none _ l).mp hidx x hx
  rw [(sameLine_eq_true_iff_key line x).mpr hxk] at hfalse
  exact Bool.noConfusion hfalse

theorem mergeItem_positive (products : List CartItem) (g : CartItem)
    (h : ∀ x ∈ products, 0 < x.quantity) (hg : 0 < g.quantity) :
    ∀ x ∈ mergeItem products g, 0 < x.quantity := by
  unfold mergeItem
  cases hi : findIndex (sameLine g.productId g.size) products with
  | none =>
    intro x hx
    simp only [List.mem_append, List.mem_singleton] at hx
    rcases hx with hx | rfl
    · exact h x hx
    · exact hg
  | some i =>
    apply forall_modifyAt _ _ _ h
    intro x hx
    have := h x hx
    show 0 < x.quantity + g.quantity
    omega

theorem mergeItems_positive (U G : List CartItem)
    (hU : ∀ x ∈ U, 0 < x.quantity) (hG : ∀ x ∈ G, 0 < x.quantity) :
    ∀ x ∈ mergeItems U G, 0 < x.quantity := by
  unfold mergeItems
  induction G generalizing U with
  | nil => simpa using hU
  | cons g gs ih =>
    simp only [List.foldl_cons]
    exact ih _ (mergeItem_positive U g hU (hG g (List.mem_cons_self _ _)))
      (fun x hx => hG x (List.mem_cons_of_mem _ hx))

theorem mergeItem_nodup_keys (products : List CartItem) (g : CartItem)
    (h : (products.map lineKey).Nodup) : ((mergeItem products g).map lineKey).Nodup := by
  unfold mergeItem
  cases hi : findIndex (sameLine g.productId g.size) products with
  | none => exact nodup_keys_push products g h hi
  | some i =>
    simp only
    rw [map_modifyAt lineKey
      (fun p : CartItem => { p with quantity := p.quantity + g.quantity })
      products i (fun _ => rfl)]
    exact h

/-- The `forEach` of the merge keeps the keys of the user cart distinct, whatever
the guest lines are. -/
theorem mergeItems_nodup_keys (U G : List CartItem) (hU : (U.map lineKey).Nodup) :
    ((mergeItems U G).map lineKey).Nodup := by
  unfold mergeItems
  induction G generalizing U with
  | nil => simpa using hU
  | cons g gs ih =>
    simp only [List.foldl_cons]
    exact ih _ (mergeItem_nodup_keys U g hU)

/-- What Add leaves in the store: the store as it was, or a saved cart whose lines
are the old ones with one quantity increased, or the old ones with a line of a
new key pushed, or a created cart with a single line. -/
theorem postCart_store_cases (catalog : Catalog) (now : Nat) (store : Store)
    (req : CartRequest) :
    (postCart catalog now store req).2 = store ∨
    (∃ cart idx cart1, cart ∈ store ∧
      cart1.products = modifyAt
        (fun p => { p with quantity := p.quantity + req.quantity }) cart.products idx ∧
      (postCart catalog now store req).2 = save store cart1) ∨
    (∃ cart line cart1, cart ∈ store ∧
      findIndex (sameLine line.productId line.size) cart.products = none ∧
      line.quantity = req.quantity ∧ cart1.products = cart.products ++ [line] ∧
      (postCart catalog now store req).2 = save store cart1) ∨
    (∃ line newCart, line.quantity = req.quantity ∧ newCart.products = [line] ∧
      (postCart catalog now store req).2 = create store newCart) := by
  cases hp : catalog req.productId with
  | none =>
    have h : postCart catalog now store req = (⟨404, .message "Product not found"⟩, store) := by
      simp only [postCart, hp]
    exact Or.inl (by rw [h])
  | some product =>
    cases hc : getCart store req.userId req.guestId with
    | none =>
      cases hl : newLine product req with
      | none =>
        have h : postCart catalog now store req = (serverError, store) := by
          simp only [postCart, hp, hc, hl]
        exact Or.inl (by rw [h])
      | some line =>
        have h : postCart catalog now store req =
            (⟨201, .cart
              { _id := freshId store
                user := if truthy req.userId then req.userId else none
                guestId := if truthy req.guestId then req.guestId
                           else some ("guest_" ++ toString now)
                products := [line]
                totalPrice := .number (product.price * req.quantity) }⟩,
             create store
              { _id := freshId store
                user := if truthy req.userId then req.userId else none
                guestId := if truthy req.guestId then req.guestId
                           else some ("guest_" ++ toString now)
                products := [line]
                totalPrice := .number (product.price * req.quantity) }) := by
          simp only [postCart, hp, hc, hl]
        exact Or.inr (Or.inr (Or.inr ⟨line, _, (newLine_fields product req line hl).2.2,
          rfl, by rw [h]⟩))
    | some cart =>
      have hmem := getCart_mem store _ _ cart hc
      cases hi : findIndex (sameLine req.productId req.size) cart.products with
      | some idx =>
        have h : (postCart catalog now store req).2 =
            save store { cart with
              products := modifyAt
                (fun p => { p with quantity := p.quantity + req.quantity })
                cart.products idx
              totalPrice := .number (recalcTotal (modifyAt
                (fun p => { p with quantity := p.quantity + req.quantity })
                cart.products idx)) } := by
          simp only [postCart, hp, hc, hi]
        exact Or.inr (Or.inl ⟨cart, idx, _, hmem, rfl, h⟩)
      | none =>
        cases hl : newLine product req with
        | none =>
          have h : postCart catalog now store req = (serverError, store) := by
            simp only [postCart, hp, hc, hi, hl]
          exact Or.inl (by rw [h])
        | some line =>
          have h : (postCart catalog now store req).2 =
              save store { cart with
                products := cart.products ++ [line]
                totalPrice := .number (recalcTotal (cart.products ++ [line])) } := by
            simp only [postCart, hp, hc, hi, hl]
          obtain ⟨h1, h2, h3⟩ := newLine_fields product req line hl
          exact Or.inr (Or.inr (Or.inl ⟨cart, line, _, hmem, by rw [h1, h2]; exact hi, h3,
            rfl, h⟩))

/-- What Update leaves in the store: the store as it was, or a saved cart whose
lines are the old ones with one quantity set to a positive value, or the old
ones with one line spliced out. -/
theorem putCart_store_cases (store : Store) (req : CartRequest) :
    (putCart store req).2 = store ∨
    (∃ cart idx cart1, cart ∈ store ∧ 0 < req.quantity ∧
      cart1.products = modifyAt
        (fun p => { p with quantity := req.quantity }) cart.products idx ∧
      (putCart store req).2 = save store cart1) ∨
    (∃ cart idx cart1, cart ∈ store ∧ cart1.products = splice1 cart.products idx ∧
      (putCart store req).2 = save store cart1) := by
  cases hc : getCart store req.userId req.guestId with
  | none => exact Or.inl (by rw [putCart_no_cart store req hc])
  | some cart =>
    have hmem := getCart_mem store _ _ cart hc
    cases hi : findIndex (sameLine req.productId req.size) cart.products with
    | none =>
      have h : putCart store req = (⟨404, .message "Product not found in cart"⟩, store) := by
        simp only [putCart, hc, hi]
      exact Or.inl (by rw [h])
    | some idx =>
      by_cases hq : 0 < req.quantity
      · have h : (putCart store req).2 =
            save store { cart with
              products := modifyAt (fun p => { p with quantity := req.quantity })
                cart.products idx
              totalPrice := .number (recalcTotal (modifyAt
                (fun p => { p with quantity := req.quantity }) cart.products idx)) } := by
          simp only [putCart, hc, hi, gt_iff_lt, hq, if_true]
        exact Or.inr (Or.inl ⟨cart, idx, _, hmem, hq, rfl, h⟩)
      · have h : (putCart store req).2 =
            save store { cart with
              products := splice1 cart.products idx
              totalPrice := .number (recalcTotal (splice1 cart.products idx)) } := by
          simp only [putCart, hc, hi, gt_iff_lt, hq, if_false]
        exact Or.inr (Or.inr ⟨cart, idx, _, hmem, rfl, h⟩)

/-- What Remove leaves in the store: the store as it was, or a saved cart whose
lines are the old ones with one line spliced out. -/
theorem deleteCart_store_cases (store : Store) (req : CartRequest) :
    (deleteCart store req).2 = store ∨
    (∃ cart idx cart1, cart ∈ store ∧ cart1.products = splice1 cart.products idx ∧
      (deleteCart store req).2 = save store cart1) := by
  cases hc : getCart store req.userId req.guestId with
  | none => exact Or.inl (by rw [deleteCart_no_cart store req hc])
  | some cart =>
    have hmem := getCart_mem store _ _ cart hc
    cases hi : findIndex (sameLine req.productId req.size) cart.products with
    | none =>
      have h : deleteCart store req
          = (⟨404, .message "Product not found in cart"⟩, store) := by
        simp only [deleteCart, hc, hi]
      exact Or.inl (by rw [h])
    | some idx =>
      have h : (deleteCart store req).2 =
          save store { cart with
            products := splice1 cart.products idx
            totalPrice := .number (recalcTotal (splice1 cart.products idx)) } := by
        simp only [deleteCart, hc, hi]
      exact Or.inr ⟨cart, idx, _, hmem, rfl, h⟩

/-! ## Invariants of the stored carts -/

/-- C22: if every line of every stored cart has a positive quantity, this is still
so after an Add with a positive quantity, after an Update with any quantity,
after a Remove, and after a Merge, whether its delete of the guest cart
succeeds or not; and the lines that the `forEach` of Merge builds from two
stored carts have positive quantities too. -/
theorem quantities_stay_positive (catalog : Catalog) (now : Nat) (store : Store)
    (req : CartRequest) (deleteOk : Bool) (guestId : Option String) (userId : String)
    (hpos : quantitiesPositive store) :
    (0 < req.quantity → quantitiesPositive (postCart catalog now store req).2) ∧
    quantitiesPositive (putCart store req).2 ∧
    quantitiesPositive (deleteCart store req).2 ∧
    quantitiesPositive (mergeCart deleteOk store guestId userId).2 ∧
    (∀ userCart ∈ store, ∀ guestCart ∈ store,
      ∀ l ∈ mergeItems userCart.products guestCart.products, 0 < l.quantity) := by
  refine ⟨?_, ?_, ?_, ?_,
    fun userCart hu guestCart hg =>
      mergeItems_positive _ _ (hpos userCart hu) (hpos guestCart hg)⟩
  · intro hq
    rcases postCart_store_cases catalog now store req with h | h | h | h
    · rw [h]; exact hpos
    · obtain ⟨cart, idx, cart1, hmem, hprods, h⟩ := h
      rw [h]
      apply forall_save store cart1 hpos
      rw [hprods]
      apply forall_modifyAt _ _ _ (hpos cart hmem)
      intro x hx
      have := hpos cart hmem x hx
      show 0 < x.quantity + req.quantity
      omega
    · obtain ⟨cart, line, cart1, hmem, _, hlq, hprods, h⟩ := h
      rw [h]
      apply forall_save store cart1 hpos
      rw [hprods]
      intro x hx
      rcases List.mem_append.mp hx with hx | hx
      · exact hpos cart hmem x hx
      · rw [List.mem_singleton.mp hx, hlq]; exact hq
    · obtain ⟨line, newCart, hlq, hprods, h⟩ := h
      rw [h]
      apply forall_create store newCart hpos
      rw [hprods]
      intro x hx
      rw [List.mem_singleton.mp hx, hlq]; exact hq
  · rcases putCart_store_cases store req with h | h | h
    · rw [h]; exact hpos
    · obtain ⟨cart, idx, cart1, hmem, hq, hprods, h⟩ := h
      rw [h]
      apply forall_save store cart1 hpos
      rw [hprods]
      exact forall_modifyAt _ _ _ (hpos cart hmem) (fun _ _ => hq)
    · obtain ⟨cart, idx, cart1, hmem, hprods, h⟩ := h
      rw [h]
      apply forall_save store cart1 hpos
      rw [hprods]
      exact fun x hx => hpos cart hmem x (mem_splice1 _ _ x hx)
  · rcases deleteCart_store_cases store req with h | h
    · rw [h]; exact hpos
    · obtain ⟨cart, idx, cart1, hmem, hprods, h⟩ := h
      rw [h]
      apply forall_save store cart1 hpos
      rw [hprods]
      exact fun x hx => hpos cart hmem x (mem_splice1 _ _ x hx)
  · rcases mergeCart_store_cases deleteOk store guestId userId with h | h
    · rw [h]; exact hpos
    · obtain ⟨guestCart, hgm, h⟩ := h
      rw [h]
      exact forall_save store _ hpos (hpos guestCart hgm)

theorem quantities_stay_positive_witness :
    quantitiesPositive [cartA 2, cartUA 3] ∧
    ((0 < (reqA 1).quantity →
        quantitiesPositive (postCart sampleCatalog 0 [cartA 2, cartUA 3] (reqA 1)).2) ∧
      quantitiesPositive (putCart [cartA 2, cartUA 3] (reqA 1)).2 ∧
      quantitiesPositive (deleteCart [cartA 2, cartUA 3] (reqA 1)).2 ∧
      quantitiesPositive (mergeCart true [cartA 2, cartUA 3] (some "g1") "u1").2 ∧
      (∀ userCart ∈ [cartA 2, cartUA 3], ∀ guestCart ∈ [cartA 2, cartUA 3],
        ∀ l ∈ mergeItems userCart.products guestCart.products, 0 < l.quantity)) :=
  ⟨by unfold quantitiesPositive; decide,
   quantities_stay_positive sampleCatalog 0 [cartA 2, cartUA 3] (reqA 1) true (some "g1") "u1"
     (by unfold quantitiesPositive; decide)⟩

/-- C23: if in every stored cart no two lines share the key `(productId, size)`,
this is still so after an Add, an Update, a Remove and a Merge, whether its
delete of the guest cart succeeds or not; and the lines that the `forEach` of
Merge builds from two stored carts have distinct keys too. -/
theorem keys_stay_unique (catalog : Catalog) (now : Nat) (store : Store)
    (req : CartRequest) (deleteOk : Bool) (guestId : Option String) (userId : String)
    (huniq : keysUnique store) :
    keysUnique (postCart catalog now store req).2 ∧
    keysUnique (putCart store req).2 ∧
    keysUnique (deleteCart store req).2 ∧
    keysUnique (mergeCart deleteOk store guestId userId).2 ∧
    (∀ userCart ∈ store, ∀ guestCart ∈ store,
      ((mergeItems userCart.products guestCart.products).map lineKey).Nodup) := by
  refine ⟨?_, ?_, ?_, ?_,
    fun userCart hu _ _ => mergeItems_nodup_keys _ _ (huniq userCart hu)⟩
  · rcases postCart_store_cases catalog now store req with h | h | h | h
    · rw [h]; exact huniq
    · obtain ⟨cart, idx, cart1, hmem, hprods, h⟩ := h
      rw [h]
      apply forall_save store cart1 huniq
      rw [hprods, map_modifyAt lineKey
        (fun p : CartItem => { p with quantity := p.quantity + req.quantity })
        cart.products idx (fun _ => rfl)]
      exact huniq cart hmem
    · obtain ⟨cart, line, cart1, hmem, hidx, _, hprods, h⟩ := h
      rw [h]
      apply forall_save store cart1 huniq
      rw [hprods]
      exact nodup_keys_push cart.products line (huniq cart hmem) hidx
    · obtain ⟨line, newCart, _, hprods, h⟩ := h
      rw [h]
      apply forall_create store newCart huniq
      rw [hprods]
      simp
  · rcases putCart_store_cases store req with h | h | h
    · rw [h]; exact huniq
    · obtain ⟨cart, idx, cart1, hmem, _, hprods, h⟩ := h
      rw [h]
      apply forall_save store cart1 huniq
      rw [hprods, map_modifyAt lineKey
        (fun p : CartItem => { p with quantity := req.quantity })
        cart.products idx (fun _ => rfl)]
      exact huniq cart hmem
    · obtain ⟨cart, idx, cart1, hmem, hprods, h⟩ := h
      rw [h]
      apply forall_save store cart1 huniq
      rw [hprods]
      exact nodup_map_splice1 lineKey _ idx (huniq cart hmem)
  · rcases deleteCart_store_cases store req with h | h
    · rw [h]; exact huniq
    · obtain ⟨cart, idx, cart1, hmem, hprods, h⟩ := h
      rw [h]
      apply forall_save store cart1 huniq
      rw [hprods]
      exact nodup_map_splice1 lineKey _ idx (huniq cart hmem)
  · rcases mergeCart_store_cases deleteOk store guestId userId with h | h
    · rw [h]; exact huniq
    · obtain ⟨guestCart, hgm, h⟩ := h
      rw [h]
      exact forall_save store _ huniq (huniq guestCart hgm)

theorem keys_stay_unique_witness :
    keysUnique [cartA 2, cartU] ∧
    (keysUnique (postCart sampleCatalog 0 [cartA 2, cartU] (reqU 1)).2 ∧
      keysUnique (putCart [cartA 2, cartU] (reqU 1)).2 ∧
      keysUnique (deleteCart [cartA 2, cartU] (reqU 1)).2 ∧
      keysUnique (mergeCart true [cartA 2, cartU] (some "g1") "u1").2 ∧
      (∀ userCart ∈ [cartA 2, cartU], ∀ guestCart ∈ [cartA 2, cartU],
        ((mergeItems userCart.products guestCart.products).map lineKey).Nodup)) :=
  ⟨by unfold keysUnique; decide,
   keys_stay_unique sampleCatalog 0 [cartA 2, cartU] (reqU 1) true (some "g1") "u1"
     (by unfold keysUnique; decide)⟩

end CartRoutes
